import Mathlib

/-!
# Salus base scheduler: a shallow embedding of `basescheduler.cpp`

The file embeds `src/execution/scheduler/basescheduler.cpp` of Salus:
`insufficientMemory`, `maybePreAllocateFor`, `submitTask`,
`submitAllTaskFromQueue`, `notifyPreSchedulingIteration` and the scheduler
registry.  Stateful code is written as explicit state passing.  The
collaborators whose code lives elsewhere (the task executor, the operations,
the liveness of sessions, the environment) are parameters of the embedding,
collected in `Externals`, and act on an abstract world state `σ`.

The sweep of `submitAllTaskFromQueue` is embedded along its serial branch
(the `#else` of `SALUS_ENABLE_PARALLEL_SCHED`); the other branch joins its
futures in stage order and rebuilds the queue with the same loop.
-/

namespace Salus

/-! ## Data model -/

/-- Modelled from the spec: the enumeration `DeviceType` is declared in a header
that is not part of the sources at hand; the spec gives `type ∈ {CPU, GPU}`. -/
inductive DeviceType where
  | CPU
  | GPU
deriving DecidableEq, Repr

/-- Modelled from the spec: `DeviceSpec` is declared in a header that is not part
of the sources at hand; the spec gives `device = (type, index ≥ 0)` with
structural equality.  `submitTask` writes the two fields `type` and `id`. -/
structure DeviceSpec where
  type : DeviceType
  id : Nat
deriving DecidableEq, Repr

/-- Modelled from the spec: the enumeration `ResourceType` is declared in a header
that is not part of the sources at hand; the spec gives
`kind ∈ {MEMORY, COMPUTE, …}`.  The further kinds stand for the `…`. -/
inductive ResourceType where
  | COMPUTE
  | MEMORY
  | GPU_STREAM
  | EXCLUSIVE
deriving DecidableEq, Repr

/-- Modelled from the spec: `ResourceTag` is declared in a header that is not part
of the sources at hand; the spec gives a pair (kind, device) with structural
equality.  `insufficientMemory` reads the fields `type` and `device`. -/
structure ResourceTag where
  type : ResourceType
  device : DeviceSpec
deriving DecidableEq, Repr

/-- Modelled from the spec: `Resources` is a mapping `ResourceTag → amount`; it is
embedded as the list of its (tag, amount) entries, which is what the range-for
of `insufficientMemory` walks over. -/
abbrev Resources := List (ResourceTag × Nat)

/-- Modelled from the spec: `OperationItem` is declared in a header that is not
part of the sources at hand.  `addr` is the identity `&opItem` used as key of the
missing-resource table, `sess` the session the weak reference `sess` points to,
`hashVal` the value of `hash()` (stable for the lifetime of the item),
`graphId` and `supportedDeviceTypes` the values of `op->graphId()` and
`op->supportedDeviceTypes()`. -/
structure OperationItem where
  addr : Nat
  sess : Nat
  hashVal : Nat
  graphId : Nat
  supportedDeviceTypes : List DeviceType
deriving DecidableEq, Repr

/-- Modelled from the spec: `SessionItem` is declared in a header that is not part
of the sources at hand.  The spec lists the FIFO queue `bgQueue` and the integer
counters `queueHeadHash` and `holWaiting`; the counters are embedded as
unbounded naturals.  The ticket set of a session is kept in
`SchedState.tickets`, indexed by the session. -/
structure SessionItem where
  sess : Nat
  bgQueue : List OperationItem
  queueHeadHash : Nat
  holWaiting : Nat
deriving DecidableEq, Repr

/-- Calls observed during a run, in the order they are made.  The trace is ghost
state: the code does not keep it, the embedding records it so that statements
about which collaborator was called, and how often, can be made. -/
inductive Event where
  | submitTask (opItem : OperationItem)
  | preAlloc (opItem : OperationItem) (spec : DeviceSpec) (ok : Bool)
  | estimatedUsage (opItem : OperationItem) (spec : DeviceSpec)
  | makeResourceContext (sess graphId : Nat) (spec : DeviceSpec) (usage : Resources)
  | prepare (opItem : OperationItem) (ticket : Nat)
  | ticketInsert (sess ticket : Nat)
  | runTask (opItem : OperationItem)
deriving DecidableEq, Repr

/-- The collaborators of the scheduler, as functions on an abstract world `σ`:
* `maxHolWaiting` is `m_taskExec.schedulingParam().maxHolWaiting`;
* `useGPU` is the value of `useGPU()` (environment variable `SALUS_SCHED_USE_GPU`);
* `lock w sess` tells whether the weak reference to session `sess` promotes;
* `estimatedUsage` is `op->estimatedUsage(spec)`;
* `makeResourceContext` returns the ticket of the context it made, or the
  `missing` map it filled when it returns null;
* `prepare` is `op->prepare(std::move(rctx))`, the context being given by its ticket;
* `runTask` is `m_taskExec.runTask`, returning null (`none`) or an item. -/
structure Externals (σ : Type) where
  maxHolWaiting : Nat
  useGPU : Bool
  lock : σ → Nat → Bool
  estimatedUsage : σ → OperationItem → DeviceSpec → Resources
  makeResourceContext : σ → Nat → Nat → DeviceSpec → Resources → Except Resources Nat × σ
  prepare : σ → OperationItem → Nat → Bool × σ
  runTask : σ → OperationItem → Option OperationItem × σ

/-- The state the scheduler code reads and writes: the world of the
collaborators, the table `m_missingRes` (entries keyed by the address of the
opItem), the field `tickets` of every session, and the ghost trace. -/
structure SchedState (σ : Type) where
  world : σ
  missingRes : List (Nat × Resources)
  tickets : Nat → List Nat
  trace : List Event

/-- Appends an event to the ghost trace. -/
def SchedState.log {σ : Type} (s : SchedState σ) (e : Event) : SchedState σ :=
  { s with trace := s.trace ++ [e] }

/-- Modelled from the spec: `m_missingRes` is declared in a header that is not part
of the sources at hand; the spec calls it a mapping `OperationItem* → Resources`.
`emplace` on a mapping inserts only when the key is absent. -/
def emplace (table : List (Nat × Resources)) (key : Nat) (missing : Resources) :
    List (Nat × Resources) :=
  if table.any (fun e => e.1 == key) then table else table ++ [(key, missing)]

/-! ## `BaseScheduler::insufficientMemory` -/

/-- The inner loop of `insufficientMemory`: walks the tags of one missing map
and returns `false` at the first tag that is not MEMORY on `spec`. -/
def allTagsMemoryOn (spec : DeviceSpec) : Resources → Bool
  | [] => true
  | (tag, _amount) :: rest =>
      let insufficientMemory := tag.type == ResourceType.MEMORY && tag.device == spec
      if !insufficientMemory then false else allTagsMemoryOn spec rest

/-- The outer loop of `insufficientMemory`, over the entries of the table. -/
def allEntriesMemoryOn (spec : DeviceSpec) : List (Nat × Resources) → Bool
  | [] => true
  | (_pOpItem, missing) :: rest =>
      if !allTagsMemoryOn spec missing then false else allEntriesMemoryOn spec rest

/-- `BaseScheduler::insufficientMemory(spec)` on the table `m_missingRes`. -/
def insufficientMemory (missingRes : List (Nat × Resources)) (spec : DeviceSpec) : Bool :=
  if missingRes.isEmpty then false
  else allEntriesMemoryOn spec missingRes

/-! ## `BaseScheduler::maybePreAllocateFor` and `BaseScheduler::submitTask` -/

/-- `BaseScheduler::maybePreAllocateFor(opItem, spec)`. -/
def maybePreAllocateFor {σ : Type} (ex : Externals σ) (s : SchedState σ)
    (opItem : OperationItem) (spec : DeviceSpec) : Bool × SchedState σ :=
  if !ex.lock s.world opItem.sess then (false, s)
  else
    let usage := ex.estimatedUsage s.world opItem spec
    let s1 := s.log (Event.estimatedUsage opItem spec)
    let s2 := s1.log (Event.makeResourceContext opItem.sess opItem.graphId spec usage)
    match ex.makeResourceContext s2.world opItem.sess opItem.graphId spec usage with
    | (Except.error missing, w) =>
        (false, { s2 with world := w, missingRes := emplace s2.missingRes opItem.addr missing })
    | (Except.ok ticket, w) =>
        let s3 := { s2 with world := w, trace := s2.trace ++ [Event.prepare opItem ticket] }
        match ex.prepare s3.world opItem ticket with
        | (false, w3) => (false, { s3 with world := w3 })
        | (true, w3) =>
            (true, { s3 with
                      world := w3
                      tickets := Function.update s3.tickets opItem.sess
                        ((s3.tickets opItem.sess).insert ticket)
                      trace := s3.trace ++ [Event.ticketInsert opItem.sess ticket] })

/-- The device loop of `submitTask`: the declared device types in order, GPU
skipped when `useGPU()` is false, `spec = {dt, 0}`, stop at the first
`maybePreAllocateFor` that returns `true`.  Returns `scheduled`. -/
def deviceLoop {σ : Type} (ex : Externals σ) (opItem : OperationItem) :
    SchedState σ → List DeviceType → Bool × SchedState σ
  | s, [] => (false, s)
  | s, dt :: rest =>
      if dt = DeviceType.GPU ∧ ex.useGPU = false then deviceLoop ex opItem s rest
      else
        let spec : DeviceSpec := { type := dt, id := 0 }
        match maybePreAllocateFor ex s opItem spec with
        | (true, s1) => (true, s1.log (Event.preAlloc opItem spec true))
        | (false, s1) => deviceLoop ex opItem (s1.log (Event.preAlloc opItem spec false)) rest

/-- `BaseScheduler::submitTask(opItem)`; `none` is the null pointer. -/
def submitTask {σ : Type} (ex : Externals σ) (s : SchedState σ) (opItem : OperationItem) :
    Option OperationItem × SchedState σ :=
  let s0 := s.log (Event.submitTask opItem)
  if !ex.lock s0.world opItem.sess then (none, s0)
  else
    match deviceLoop ex opItem s0 opItem.supportedDeviceTypes with
    | (true, s1) =>
        let r := ex.runTask s1.world opItem
        (r.1, { s1 with world := r.2, trace := s1.trace ++ [Event.runTask opItem] })
    | (false, s1) => (some opItem, s1)

/-! ## `BaseScheduler::submitAllTaskFromQueue` -/

/-- The serial sweep: every opItem of `stage` goes through `submitTask`, the
non-null results are appended to `queue` (`emplace_back`). -/
def sweep {σ : Type} (ex : Externals σ) :
    SchedState σ → List OperationItem → List OperationItem → List OperationItem × SchedState σ
  | s, [], queue => (queue, s)
  | s, opItem :: stage, queue =>
      match submitTask ex s opItem with
      | (some poi, s1) => sweep ex s1 stage (queue ++ [poi])
      | (none, s1) => sweep ex s1 stage queue

/-- The block "update queue head waiting" at the end of
`submitAllTaskFromQueue`, given the queue and `scheduled` at that point. -/
def updateHeadWaiting (item : SessionItem) (queue : List OperationItem) (scheduled : Nat) :
    SessionItem :=
  match queue with
  | [] => { item with bgQueue := [], queueHeadHash := 0, holWaiting := 0 }
  | front :: _ =>
      if front.hashVal = item.queueHeadHash then
        { item with bgQueue := queue, holWaiting := item.holWaiting + scheduled }
      else
        { item with bgQueue := queue, queueHeadHash := front.hashVal, holWaiting := 0 }

/-- `BaseScheduler::submitAllTaskFromQueue(item)`: returns `scheduled`, the
session item and the scheduler state after the call. -/
def submitAllTaskFromQueue {σ : Type} (ex : Externals σ) (s : SchedState σ)
    (item : SessionItem) : Nat × SessionItem × SchedState σ :=
  match item.bgQueue with
  | [] => (0, item, s)
  | head :: tail =>
      if item.holWaiting > ex.maxHolWaiting then
        match submitTask ex s head with
        | (none, s1) => (1, updateHeadWaiting item tail 1, s1)
        | (some head1, s1) => (0, updateHeadWaiting item (head1 :: tail) 0, s1)
      else
        let size := (head :: tail).length
        let r := sweep ex s (head :: tail) []
        let scheduled := size - r.1.length
        (scheduled, updateHeadWaiting item r.1 scheduled, r.2)

/-- `BaseScheduler::notifyPreSchedulingIteration(sessions, changeset, candidates)`:
the three arguments are unused, `m_missingRes` is cleared.  `sessions` and
`changeset` are const references; `candidates` points to a list the callee
could write, so the list is returned next to the state and the sessions. -/
def notifyPreSchedulingIteration {σ Δ : Type} (s : SchedState σ)
    (sessions : List SessionItem) (_changeset : Δ) (candidates : List SessionItem) :
    SchedState σ × List SessionItem × List SessionItem :=
  ({ s with missingRes := [] }, sessions, candidates)

/-! ## `SchedulerRegistary` -/

/-- Modelled from the spec: `SchedulerRegistary` is declared in a header that is
not part of the sources at hand; the spec calls `m_schedulers` a mapping
name → factory.  The entries are listed in insertion order.  A factory takes the
engine (type `E`) and returns a scheduler pointer (type `B`), which may be null
(`none`). -/
structure SchedulerRegistary (E B : Type) where
  m_schedulers : List (String × (E → Option B))

/-- `m_schedulers.find(name)`: the factory stored under `name`, or `none` for
`m_schedulers.end()`. -/
def SchedulerRegistary.find {E B : Type} (reg : SchedulerRegistary E B) (name : String) :
    Option (E → Option B) :=
  match reg.m_schedulers.find? (fun e => decide (e.1 = name)) with
  | some e => some e.2
  | none => none

/-- `m_schedulers.try_emplace(name, factory)`: inserts when `name` has no entry
and leaves the mapping as it is otherwise; returns the mapping and `inserted`. -/
def SchedulerRegistary.try_emplace {E B : Type} (reg : SchedulerRegistary E B) (name : String)
    (factory : E → Option B) : SchedulerRegistary E B × Bool :=
  match reg.find name with
  | some _ => (reg, false)
  | none => ({ m_schedulers := reg.m_schedulers ++ [(name, factory)] }, true)

/-- `SchedulerRegistary::Register::Register(name, factory)`: returns the registry
after the call and whether `LOG(FATAL)` was reached (duplicate registration). -/
def SchedulerRegistary.Register {E B : Type} (reg : SchedulerRegistary E B) (name : String)
    (factory : E → Option B) : SchedulerRegistary E B × Bool :=
  let r := reg.try_emplace name factory
  if !r.2 then (r.1, true) else (r.1, false)

/-- `SchedulerRegistary::create(name, engine)`; `none` is the null pointer. -/
def SchedulerRegistary.create {E B : Type} (reg : SchedulerRegistary E B) (name : String)
    (engine : E) : Option B :=
  match reg.find name with
  | none => none
  | some factory => factory engine

/-- The registry after a sequence of registrations, starting from the empty
registry of `SchedulerRegistary::instance()`. -/
def SchedulerRegistary.registerAll {E B : Type} :
    List (String × (E → Option B)) → SchedulerRegistary E B
  | regs => regs.foldl (fun reg r => (reg.Register r.1 r.2).1) { m_schedulers := [] }

/-! ## Observations on traces and sweeps -/

/-- The opItems `submitTask` was called on, in call order. -/
def submitCalls : List Event → List OperationItem
  | [] => []
  | Event.submitTask opItem :: rest => opItem :: submitCalls rest
  | _ :: rest => submitCalls rest

/-- The `maybePreAllocateFor` attempts made by the device loop, with their result. -/
def preAllocCalls : List Event → List (OperationItem × DeviceSpec × Bool)
  | [] => []
  | Event.preAlloc opItem spec ok :: rest => (opItem, spec, ok) :: preAllocCalls rest
  | _ :: rest => preAllocCalls rest

/-- The opItems handed to `executor.runTask`, in call order. -/
def runTaskCalls : List Event → List OperationItem
  | [] => []
  | Event.runTask opItem :: rest => opItem :: runTaskCalls rest
  | _ :: rest => runTaskCalls rest

/-- The (session, ticket) pairs of the `tickets.insert` calls, in call order. -/
def ticketInserts : List Event → List (Nat × Nat)
  | [] => []
  | Event.ticketInsert sess ticket :: rest => (sess, ticket) :: ticketInserts rest
  | _ :: rest => ticketInserts rest

/-- The (opItem, ticket) pairs of the `prepare` calls, in call order. -/
def prepareCalls : List Event → List (OperationItem × Nat)
  | [] => []
  | Event.prepare opItem ticket :: rest => (opItem, ticket) :: prepareCalls rest
  | _ :: rest => prepareCalls rest

/-- The calls made to the collaborators (`estimatedUsage`, `makeResourceContext`,
`prepare`, `runTask`) and the ticket insertions: the trace without the events
that only record a call of `submitTask` or the result of a device attempt. -/
def collaboratorCalls : List Event → List Event
  | [] => []
  | Event.submitTask _ :: rest => collaboratorCalls rest
  | Event.preAlloc _ _ _ :: rest => collaboratorCalls rest
  | e :: rest => e :: collaboratorCalls rest

/-- The device specs the device loop tries for the device types `dts`: the types
in order, without GPU when `useGPU()` is false, each with `id = 0`. -/
def specsToTry {σ : Type} (ex : Externals σ) (dts : List DeviceType) : List DeviceSpec :=
  (dts.filter (fun dt => !decide (dt = DeviceType.GPU ∧ ex.useGPU = false))).map
    (fun dt => { type := dt, id := 0 })

/-- The device specs `submitTask` may try for an opItem. -/
def eligibleSpecs {σ : Type} (ex : Externals σ) (opItem : OperationItem) : List DeviceSpec :=
  specsToTry ex opItem.supportedDeviceTypes

/-- The results of the `submitTask` calls of a sweep over `stage` started in
state `s`: each opItem with what `submitTask` returned for it, the state being
threaded from one call to the next as in `sweep`. -/
def sweepResults {σ : Type} (ex : Externals σ) :
    SchedState σ → List OperationItem → List (OperationItem × Option OperationItem)
  | _, [] => []
  | s, opItem :: stage =>
      (opItem, (submitTask ex s opItem).1) :: sweepResults ex (submitTask ex s opItem).2 stage

/-- The contract of `runTask` in the spec (§6.1): it consumes the opItem
(returns null) or returns the opItem it was given. -/
def RunTaskContract {σ : Type} (ex : Externals σ) : Prop :=
  ∀ (w : σ) (opItem : OperationItem),
    (ex.runTask w opItem).1 = none ∨ (ex.runTask w opItem).1 = some opItem

/-- One call of `submitAllTaskFromQueue` in which the queue head is not
dispatched (`submitTask` hands the head back) while the call dispatches at
least one opItem. -/
def StuckCall {σ : Type} (ex : Externals σ) (s : SchedState σ) (item : SessionItem) : Prop :=
  ∃ head tail, item.bgQueue = head :: tail ∧
    (submitTask ex s head).1 = some head ∧
    1 ≤ (submitAllTaskFromQueue ex s item).1

/-- A run of consecutive `submitAllTaskFromQueue` calls on one session.  Each
call is given the scheduler state it starts in and the opItems enqueued at the
tail since the previous call; every call is a `StuckCall`.  `after` lists the
session item after each call. -/
def IsRun {σ : Type} (ex : Externals σ) :
    SessionItem → List (SchedState σ × List OperationItem) → List SessionItem → Prop
  | _, [], after => after = []
  | item, (s, enqueued) :: calls, after =>
      let item1 := { item with bgQueue := item.bgQueue ++ enqueued }
      StuckCall ex s item1 ∧
        ∃ rest, after = (submitAllTaskFromQueue ex s item1).2.1 :: rest ∧
          IsRun ex (submitAllTaskFromQueue ex s item1).2.1 calls rest

/-! ## The device loop, told from the spec -/

/-- The state after the attempts on `specs`, made one after the other from `s`,
when all of them fail: each attempt is a `maybePreAllocateFor` call followed by
the record of its failure. -/
def afterFailedAttempts {σ : Type} (ex : Externals σ) (opItem : OperationItem) :
    SchedState σ → List DeviceSpec → SchedState σ
  | s, [] => s
  | s, spec :: rest =>
      afterFailedAttempts ex opItem
        ((maybePreAllocateFor ex s opItem spec).2.log (Event.preAlloc opItem spec false)) rest

/-- Whether the `maybePreAllocateFor` calls on `specs`, made one after the other
from `s`, all return `false`. -/
def attemptsAllFail {σ : Type} (ex : Externals σ) (opItem : OperationItem) :
    SchedState σ → List DeviceSpec → Bool
  | _, [] => true
  | s, spec :: rest =>
      !(maybePreAllocateFor ex s opItem spec).1 &&
        attemptsAllFail ex opItem
          ((maybePreAllocateFor ex s opItem spec).2.log (Event.preAlloc opItem spec false)) rest

/-- The state after the failed attempts on `pre` followed by the
`maybePreAllocateFor` call on `d` and the record of its success. -/
def afterFirstSuccess {σ : Type} (ex : Externals σ) (opItem : OperationItem)
    (s : SchedState σ) (pre : List DeviceSpec) (d : DeviceSpec) : SchedState σ :=
  (maybePreAllocateFor ex (afterFailedAttempts ex opItem s pre) opItem d).2.log
    (Event.preAlloc opItem d true)

/-! ## A concrete executor for the scenarios -/

/-- First opItem of session 0, supporting [GPU, CPU]; it never fits (graph 0). -/
def opA : OperationItem :=
  { addr := 1, sess := 0, hashVal := 101, graphId := 0,
    supportedDeviceTypes := [DeviceType.GPU, DeviceType.CPU] }

/-- Second opItem of session 0; it fits on the GPU (graph 1). -/
def opB : OperationItem :=
  { addr := 2, sess := 0, hashVal := 102, graphId := 1,
    supportedDeviceTypes := [DeviceType.GPU, DeviceType.CPU] }

/-- Third opItem of session 0; it fits on the GPU (graph 1). -/
def opC : OperationItem :=
  { addr := 3, sess := 0, hashVal := 103, graphId := 1,
    supportedDeviceTypes := [DeviceType.GPU, DeviceType.CPU] }

/-- An opItem whose session (7) is gone. -/
def opDead (n : Nat) : OperationItem :=
  { addr := 10 + n, sess := 7, hashVal := 110 + n, graphId := 2,
    supportedDeviceTypes := [DeviceType.GPU, DeviceType.CPU] }

/-- A concrete executor.  The world is the next free ticket.  Session 7 is
dead.  Graph 0 never fits (GPU memory is missing, CPU memory is missing), graph 1
fits on the GPU, graph 2 fits on the CPU only.  `prepare` accepts and `runTask`
consumes. -/
def exDemo : Externals Nat :=
  { maxHolWaiting := 2
    useGPU := true
    lock := fun _ sess => sess != 7
    estimatedUsage := fun _ _ spec => [({ type := ResourceType.MEMORY, device := spec }, 100)]
    makeResourceContext := fun w _ graphId spec _ =>
      if graphId = 0 ∨ (graphId = 2 ∧ spec.type = DeviceType.GPU) then
        (Except.error [({ type := ResourceType.MEMORY, device := spec }, 50)], w)
      else (Except.ok w, w + 1)
    prepare := fun w _ _ => (true, w)
    runTask := fun w _ => (none, w) }

/-- The scheduler state at the start of the scenarios: empty table, no ticket. -/
def sDemo : SchedState Nat :=
  { world := 0, missingRes := [], tickets := fun _ => [], trace := [] }

/-- A newly created session holding the queue `[opA, opB, opC]`. -/
def itemDemo : SessionItem :=
  { sess := 0, bgQueue := [opA, opB, opC], queueHeadHash := 0, holWaiting := 0 }

/-- A fourth opItem of session 0 that never fits (graph 0). -/
def opD : OperationItem :=
  { addr := 4, sess := 0, hashVal := 104, graphId := 0,
    supportedDeviceTypes := [DeviceType.GPU, DeviceType.CPU] }

/-- The session of scenario S4: queue `[opA, opB, opD]`, of which only `opB` fits. -/
def itemOrder : SessionItem :=
  { sess := 0, bgQueue := [opA, opB, opD], queueHeadHash := 0, holWaiting := 0 }

/-- A session whose head `opA` has been waiting longer than `maxHolWaiting = 2`. -/
def itemOverflow : SessionItem :=
  { sess := 0, bgQueue := [opA, opB], queueHeadHash := 101, holWaiting := 3 }

/-- A session with an empty queue. -/
def itemEmpty : SessionItem :=
  { sess := 0, bgQueue := [], queueHeadHash := 0, holWaiting := 0 }

/-- The session of scenario S5: five opItems whose session is gone. -/
def itemDead : SessionItem :=
  { sess := 7, bgQueue := [opDead 0, opDead 1, opDead 2, opDead 3, opDead 4],
    queueHeadHash := 0, holWaiting := 0 }

/-- An opItem of session 0 that fits on the CPU only (graph 2). -/
def opE : OperationItem :=
  { addr := 5, sess := 0, hashVal := 105, graphId := 2,
    supportedDeviceTypes := [DeviceType.GPU, DeviceType.CPU] }

/-- A newly created session holding the queue `[opA, opB]`. -/
def itemRun : SessionItem :=
  { sess := 0, bgQueue := [opA, opB], queueHeadHash := 0, holWaiting := 0 }

/-- The session `itemRun` after one call: `opA` is the observed head. -/
def itemRun1 : SessionItem :=
  { sess := 0, bgQueue := [opA], queueHeadHash := 101, holWaiting := 0 }

/-- The session `itemRun` after two calls, `opC` having been enqueued in between. -/
def itemRun2 : SessionItem :=
  { sess := 0, bgQueue := [opA], queueHeadHash := 101, holWaiting := 1 }

/-- A session whose head `opA` has been observed and whose queue is `[opA, opC]`. -/
def itemObserved : SessionItem :=
  { sess := 0, bgQueue := [opA, opC], queueHeadHash := 101, holWaiting := 0 }

/-- Two registrations, of the factories of schedulers 1 and 2. -/
def regsDemo : List (String × (Unit → Option Nat)) :=
  [("fair", fun _ => some 1), ("pack", fun _ => some 2)]

/-- One registration, of a factory that returns the null pointer. -/
def regsNull : List (String × (Unit → Option Nat)) :=
  [("null", fun _ => none)]

/-! ## Theorems -/

/-- The inner loop accepts a missing map exactly when all its tags are MEMORY on `spec`. -/
theorem allTagsMemoryOn_iff (spec : DeviceSpec) (missing : Resources) :
    allTagsMemoryOn spec missing = true ↔
      ∀ ta ∈ missing, ta.1.type = ResourceType.MEMORY ∧ ta.1.device = spec := by
  induction missing with
  | nil => simp [allTagsMemoryOn]
  | cons hd tl ih =>
      obtain ⟨tag, amount⟩ := hd
      rw [List.forall_mem_cons, ← ih]
      by_cases h : tag.type = ResourceType.MEMORY ∧ tag.device = spec
      · simp [allTagsMemoryOn, h]
      · have h2 : (tag.type == ResourceType.MEMORY && tag.device == spec) = false := by
          simpa [Bool.and_eq_false_iff] using h
        simp only [allTagsMemoryOn, h2]
        constructor
        · intro h3
          simp at h3
        · intro h3
          exact absurd h3.1 h

/-- The outer loop accepts a table exactly when every entry is accepted by the inner loop. -/
theorem allEntriesMemoryOn_iff (spec : DeviceSpec) (table : List (Nat × Resources)) :
    allEntriesMemoryOn spec table = true ↔
      ∀ e ∈ table, ∀ ta ∈ e.2, ta.1.type = ResourceType.MEMORY ∧ ta.1.device = spec := by
  induction table with
  | nil => simp [allEntriesMemoryOn]
  | cons hd tl ih =>
      obtain ⟨key, missing⟩ := hd
      rw [List.forall_mem_cons, ← ih, ← allTagsMemoryOn_iff]
      by_cases h : allTagsMemoryOn spec missing = true
      · simp [allEntriesMemoryOn, h]
      · simp [allEntriesMemoryOn, h]

/-- C1: `insufficientMemory(d)` is true exactly when the missing-resource table is
non-empty and every tag of every entry's missing map has kind MEMORY and device
`d`; on the empty table it is false for every device. -/
theorem insufficientMemory_iff (missingRes : List (Nat × Resources)) (d : DeviceSpec) :
    (insufficientMemory missingRes d = true ↔
      missingRes ≠ [] ∧
        ∀ e ∈ missingRes, ∀ ta ∈ e.2, ta.1.type = ResourceType.MEMORY ∧ ta.1.device = d) ∧
    (∀ d0 : DeviceSpec, insufficientMemory [] d0 = false) := by
  refine ⟨?_, fun d0 => rfl⟩
  cases missingRes with
  | nil => simp [insufficientMemory]
  | cons hd tl =>
      simp only [insufficientMemory, List.isEmpty_cons, Bool.false_eq_true, if_false]
      rw [allEntriesMemoryOn_iff]
      simp

/-! ### Traces -/

theorem submitCalls_append (a b : List Event) :
    submitCalls (a ++ b) = submitCalls a ++ submitCalls b := by
  induction a with
  | nil => rfl
  | cons e tl ih => cases e <;> simp [submitCalls, ih]

theorem preAllocCalls_append (a b : List Event) :
    preAllocCalls (a ++ b) = preAllocCalls a ++ preAllocCalls b := by
  induction a with
  | nil => rfl
  | cons e tl ih => cases e <;> simp [preAllocCalls, ih]

theorem runTaskCalls_append (a b : List Event) :
    runTaskCalls (a ++ b) = runTaskCalls a ++ runTaskCalls b := by
  induction a with
  | nil => rfl
  | cons e tl ih => cases e <;> simp [runTaskCalls, ih]

theorem ticketInserts_append (a b : List Event) :
    ticketInserts (a ++ b) = ticketInserts a ++ ticketInserts b := by
  induction a with
  | nil => rfl
  | cons e tl ih => cases e <;> simp [ticketInserts, ih]

theorem prepareCalls_append (a b : List Event) :
    prepareCalls (a ++ b) = prepareCalls a ++ prepareCalls b := by
  induction a with
  | nil => rfl
  | cons e tl ih => cases e <;> simp [prepareCalls, ih]

theorem collaboratorCalls_append (a b : List Event) :
    collaboratorCalls (a ++ b) = collaboratorCalls a ++ collaboratorCalls b := by
  induction a with
  | nil => rfl
  | cons e tl ih => cases e <;> simp [collaboratorCalls, ih]

/-- What one `maybePreAllocateFor` call adds to the trace and to the ticket sets. -/
theorem maybePreAllocateFor_effect {σ : Type} (ex : Externals σ) (s : SchedState σ)
    (opItem : OperationItem) (spec : DeviceSpec) :
    ∃ evs, (maybePreAllocateFor ex s opItem spec).2.trace = s.trace ++ evs ∧
      submitCalls evs = [] ∧ preAllocCalls evs = [] ∧ runTaskCalls evs = [] ∧
      (((maybePreAllocateFor ex s opItem spec).1 = true ∧
          ∃ t, ticketInserts evs = [(opItem.sess, t)] ∧
            (maybePreAllocateFor ex s opItem spec).2.tickets =
              Function.update s.tickets opItem.sess ((s.tickets opItem.sess).insert t) ∧
            (prepareCalls evs).getLast? = some (opItem, t) ∧
            ∃ w, (ex.prepare w opItem t).1 = true) ∨
        ((maybePreAllocateFor ex s opItem spec).1 = false ∧ ticketInserts evs = [] ∧
          (maybePreAllocateFor ex s opItem spec).2.tickets = s.tickets)) := by
  unfold maybePreAllocateFor
  by_cases hl : ex.lock s.world opItem.sess = true
  · simp only [hl, Bool.not_true, Bool.false_eq_true, if_false, SchedState.log]
    cases hm : ex.makeResourceContext s.world opItem.sess opItem.graphId spec
        (ex.estimatedUsage s.world opItem spec) with
    | mk res w =>
      cases res with
      | error missing =>
          refine ⟨[Event.estimatedUsage opItem spec,
            Event.makeResourceContext opItem.sess opItem.graphId spec
              (ex.estimatedUsage s.world opItem spec)], ?_, rfl, rfl, rfl, Or.inr ⟨rfl, rfl, rfl⟩⟩
          simp
      | ok ticket =>
          simp only []
          cases hp : ex.prepare w opItem ticket with
          | mk ok w3 =>
            cases ok with
            | false =>
                refine ⟨[Event.estimatedUsage opItem spec,
                  Event.makeResourceContext opItem.sess opItem.graphId spec
                    (ex.estimatedUsage s.world opItem spec), Event.prepare opItem ticket],
                  ?_, rfl, rfl, rfl, Or.inr ⟨rfl, rfl, rfl⟩⟩
                simp
            | true =>
                refine ⟨[Event.estimatedUsage opItem spec,
                  Event.makeResourceContext opItem.sess opItem.graphId spec
                    (ex.estimatedUsage s.world opItem spec), Event.prepare opItem ticket,
                  Event.ticketInsert opItem.sess ticket],
                  ?_, rfl, rfl, rfl, Or.inl ⟨rfl, ticket, rfl, rfl, rfl, w, ?_⟩⟩
                · simp
                · rw [hp]
  · simp only [Bool.not_eq_true] at hl
    have hn : (!ex.lock s.world opItem.sess) = true := by simp [hl]
    rw [if_pos hn]
    exact ⟨[], by simp, rfl, rfl, rfl, Or.inr ⟨rfl, rfl, rfl⟩⟩

/-- What the device loop adds to the trace and to the ticket sets: the attempts
are the failed specs up to the first success, or all specs, failed. -/
theorem deviceLoop_effect {σ : Type} (ex : Externals σ) (opItem : OperationItem)
    (dts : List DeviceType) (s : SchedState σ) :
    ∃ evs, (deviceLoop ex opItem s dts).2.trace = s.trace ++ evs ∧
      submitCalls evs = [] ∧ runTaskCalls evs = [] ∧
      (((deviceLoop ex opItem s dts).1 = true ∧
          (∃ pre d post, specsToTry ex dts = pre ++ d :: post ∧
            preAllocCalls evs = pre.map (fun x => (opItem, x, false)) ++ [(opItem, d, true)]) ∧
          ∃ t, ticketInserts evs = [(opItem.sess, t)] ∧
            (deviceLoop ex opItem s dts).2.tickets =
              Function.update s.tickets opItem.sess ((s.tickets opItem.sess).insert t) ∧
            (prepareCalls evs).getLast? = some (opItem, t) ∧
            ∃ w, (ex.prepare w opItem t).1 = true) ∨
        ((deviceLoop ex opItem s dts).1 = false ∧
          preAllocCalls evs = (specsToTry ex dts).map (fun x => (opItem, x, false)) ∧
          ticketInserts evs = [] ∧
          (deviceLoop ex opItem s dts).2.tickets = s.tickets)) := by
  induction dts generalizing s with
  | nil =>
      exact ⟨[], by simp [deviceLoop], rfl, rfl, Or.inr ⟨rfl, rfl, rfl, rfl⟩⟩
  | cons dt rest ih =>
      by_cases hskip : dt = DeviceType.GPU ∧ ex.useGPU = false
      · have hspecs : specsToTry ex (dt :: rest) = specsToTry ex rest := by
          have hd : (!decide (dt = DeviceType.GPU ∧ ex.useGPU = false)) = false := by
            simp only [hskip, and_self, decide_True, Bool.not_true]
          simp only [specsToTry, List.filter_cons, hd, Bool.false_eq_true, if_false]
        have hloop : deviceLoop ex opItem s (dt :: rest) = deviceLoop ex opItem s rest := by
          simp only [deviceLoop, hskip, and_self, if_true]
        rw [hloop, hspecs]
        exact ih s
      · have hspecs : specsToTry ex (dt :: rest)
            = { type := dt, id := 0 } :: specsToTry ex rest := by
          have hd : (!decide (dt = DeviceType.GPU ∧ ex.useGPU = false)) = true := by
            simp only [hskip, decide_False, Bool.not_false]
          simp only [specsToTry, List.filter_cons, hd, if_true, List.map_cons]
        obtain ⟨evs1, htr1, hs1, hp1, hr1, hcase⟩ :=
          maybePreAllocateFor_effect ex s opItem { type := dt, id := 0 }
        cases hm : maybePreAllocateFor ex s opItem { type := dt, id := 0 } with
        | mk ok s1 =>
          rw [hm] at htr1 hcase
          simp only at htr1 hcase
          cases ok with
          | true =>
              have hloop : deviceLoop ex opItem s (dt :: rest)
                  = (true, s1.log (Event.preAlloc opItem { type := dt, id := 0 } true)) := by
                simp only [deviceLoop, hskip, if_false, hm]
              rw [hloop, hspecs]
              rcases hcase with ⟨_, t, hti, htk, hlast, hw⟩ | ⟨hf, _⟩
              · refine ⟨evs1 ++ [Event.preAlloc opItem { type := dt, id := 0 } true], ?_, ?_, ?_,
                  Or.inl ⟨rfl, ⟨[], _, _, rfl, ?_⟩, t, ?_, htk, ?_, hw⟩⟩
                · simp [SchedState.log, htr1]
                · simp [submitCalls_append, hs1, submitCalls]
                · simp [runTaskCalls_append, hr1, runTaskCalls]
                · simp [preAllocCalls_append, hp1, preAllocCalls]
                · simp [ticketInserts_append, hti, ticketInserts]
                · simp [prepareCalls_append, prepareCalls, hlast]
              · exact absurd hf (by simp)
          | false =>
              have hloop : deviceLoop ex opItem s (dt :: rest)
                  = deviceLoop ex opItem
                      (s1.log (Event.preAlloc opItem { type := dt, id := 0 } false)) rest := by
                simp only [deviceLoop, hskip, if_false, hm]
              rw [hloop, hspecs]
              rcases hcase with ⟨ht, _⟩ | ⟨_, hti, htk⟩
              · exact absurd ht (by simp)
              · obtain ⟨evs2, htr2, hs2, hr2, hcase2⟩ :=
                  ih (s1.log (Event.preAlloc opItem { type := dt, id := 0 } false))
                have htk1 : (s1.log (Event.preAlloc opItem { type := dt, id := 0 } false)).tickets
                    = s.tickets := htk
                refine ⟨evs1 ++ [Event.preAlloc opItem { type := dt, id := 0 } false] ++ evs2,
                  ?_, ?_, ?_, ?_⟩
                · rw [htr2]; simp [SchedState.log, htr1]
                · simp [submitCalls_append, hs1, hs2, submitCalls]
                · simp [runTaskCalls_append, hr1, hr2, runTaskCalls]
                · rcases hcase2 with ⟨hok, ⟨pre, d, post, hsp, hpa⟩, t, hti2, htk2, hlast2, hw⟩ |
                    ⟨hno, hpa, hti2, htk2⟩
                  · refine Or.inl ⟨hok, ⟨{ type := dt, id := 0 } :: pre, d, post, ?_, ?_⟩,
                      t, ?_, ?_, ?_, hw⟩
                    · simp [hsp]
                    · simp [preAllocCalls_append, hp1, hpa, preAllocCalls]
                    · simp [ticketInserts_append, hti, hti2, ticketInserts]
                    · rw [htk2, htk1]
                    · simp [prepareCalls_append, prepareCalls, List.getLast?_append, hlast2]
                  · refine Or.inr ⟨hno, ?_, ?_, ?_⟩
                    · simp [preAllocCalls_append, hp1, hpa, preAllocCalls]
                    · simp [ticketInserts_append, hti, hti2, ticketInserts]
                    · rw [htk2, htk1]

/-! ### `submitTask` -/

/-- On an opItem whose session is gone `submitTask` returns null and only the
ghost event of its own call is added to the state. -/
theorem submitTask_dead {σ : Type} (ex : Externals σ) (s : SchedState σ)
    (opItem : OperationItem) (hdead : ex.lock s.world opItem.sess = false) :
    submitTask ex s opItem = (none, s.log (Event.submitTask opItem)) := by
  have hn : (!ex.lock (s.log (Event.submitTask opItem)).world opItem.sess) = true := by
    simp [SchedState.log, hdead]
  simp only [submitTask]
  rw [if_pos hn]

/-- What one `submitTask` call on an opItem with a live session adds to the
trace and to the ticket sets. -/
theorem submitTask_live_effect {σ : Type} (ex : Externals σ) (s : SchedState σ)
    (opItem : OperationItem) (hlive : ex.lock s.world opItem.sess = true) :
    ∃ evs, (submitTask ex s opItem).2.trace = s.trace ++ Event.submitTask opItem :: evs ∧
      submitCalls evs = [] ∧
      (((∃ pre d post, eligibleSpecs ex opItem = pre ++ d :: post ∧
            preAllocCalls evs = pre.map (fun x => (opItem, x, false)) ++ [(opItem, d, true)]) ∧
          runTaskCalls evs = [opItem] ∧
          (∃ t, ticketInserts evs = [(opItem.sess, t)] ∧
            (submitTask ex s opItem).2.tickets =
              Function.update s.tickets opItem.sess ((s.tickets opItem.sess).insert t) ∧
            (prepareCalls evs).getLast? = some (opItem, t) ∧
            ∃ w, (ex.prepare w opItem t).1 = true) ∧
          ∃ w, (submitTask ex s opItem).1 = (ex.runTask w opItem).1) ∨
        (preAllocCalls evs = (eligibleSpecs ex opItem).map (fun x => (opItem, x, false)) ∧
          runTaskCalls evs = [] ∧ ticketInserts evs = [] ∧
          (submitTask ex s opItem).2.tickets = s.tickets ∧
          (submitTask ex s opItem).1 = some opItem)) := by
  have hn : (!ex.lock (s.log (Event.submitTask opItem)).world opItem.sess) = false := by
    simp [SchedState.log, hlive]
  obtain ⟨evs, htr, hs, hr, hcase⟩ :=
    deviceLoop_effect ex opItem opItem.supportedDeviceTypes (s.log (Event.submitTask opItem))
  cases hd : deviceLoop ex opItem (s.log (Event.submitTask opItem))
      opItem.supportedDeviceTypes with
  | mk ok s1 =>
    rw [hd] at htr hcase
    simp only at htr hcase
    have htr1 : s1.trace = s.trace ++ Event.submitTask opItem :: evs := by
      rw [htr]; simp [SchedState.log]
    cases ok with
    | true =>
        have hsub : submitTask ex s opItem
            = ((ex.runTask s1.world opItem).1,
                { s1 with world := (ex.runTask s1.world opItem).2,
                          trace := s1.trace ++ [Event.runTask opItem] }) := by
          simp only [submitTask]
          rw [hn]
          simp only [Bool.false_eq_true, if_false, hd]
        rw [hsub]
        rcases hcase with ⟨_, hatt, t, hti, htk, hlast, hw⟩ | ⟨hf, _⟩
        · refine ⟨evs ++ [Event.runTask opItem], ?_, ?_, Or.inl ⟨?_, ?_, ⟨t, ?_, ?_, ?_, hw⟩,
            s1.world, rfl⟩⟩
          · simp [htr1]
          · simp [submitCalls_append, hs, submitCalls]
          · obtain ⟨pre, d, post, hsp, hpa⟩ := hatt
            exact ⟨pre, d, post, hsp, by simp [preAllocCalls_append, hpa, preAllocCalls]⟩
          · simp [runTaskCalls_append, hr, runTaskCalls]
          · simp [ticketInserts_append, hti, ticketInserts]
          · exact htk
          · simp [prepareCalls_append, prepareCalls, hlast]
        · exact absurd hf (by simp)
    | false =>
        have hsub : submitTask ex s opItem = (some opItem, s1) := by
          simp only [submitTask]
          rw [hn]
          simp only [Bool.false_eq_true, if_false, hd]
        rw [hsub]
        rcases hcase with ⟨ht, _⟩ | ⟨_, hpa, hti, htk⟩
        · exact absurd ht (by simp)
        · exact ⟨evs, htr1, hs, Or.inr ⟨hpa, hr, hti, htk, rfl⟩⟩

/-- Every `submitTask` call records exactly one call of itself, on its argument. -/
theorem submitTask_submitCalls {σ : Type} (ex : Externals σ) (s : SchedState σ)
    (opItem : OperationItem) :
    submitCalls (submitTask ex s opItem).2.trace = submitCalls s.trace ++ [opItem] := by
  by_cases hl : ex.lock s.world opItem.sess = true
  · obtain ⟨evs, htr, hs, _⟩ := submitTask_live_effect ex s opItem hl
    rw [htr, submitCalls_append]
    simp [submitCalls, hs]
  · simp only [Bool.not_eq_true] at hl
    rw [submitTask_dead ex s opItem hl]
    simp [SchedState.log, submitCalls_append, submitCalls]

/-- Under the contract of `runTask`, `submitTask` returns null or its argument. -/
theorem submitTask_result {σ : Type} (ex : Externals σ) (hrun : RunTaskContract ex)
    (s : SchedState σ) (opItem : OperationItem) :
    (submitTask ex s opItem).1 = none ∨ (submitTask ex s opItem).1 = some opItem := by
  by_cases hl : ex.lock s.world opItem.sess = true
  · obtain ⟨evs, _, _, hcase⟩ := submitTask_live_effect ex s opItem hl
    rcases hcase with ⟨_, _, _, w, hw⟩ | ⟨_, _, _, _, hres⟩
    · rw [hw]; exact hrun w opItem
    · exact Or.inr hres
  · simp only [Bool.not_eq_true] at hl
    rw [submitTask_dead ex s opItem hl]
    exact Or.inl rfl

/-! ### The sweep -/

/-- The sweep appends to `queue` the non-null results of its `submitTask` calls. -/
theorem sweep_queue {σ : Type} (ex : Externals σ) (stage : List OperationItem)
    (s : SchedState σ) (queue : List OperationItem) :
    (sweep ex s stage queue).1 = queue ++ (sweepResults ex s stage).filterMap (fun p => p.2) := by
  induction stage generalizing s queue with
  | nil => simp [sweep, sweepResults]
  | cons opItem stage ih =>
      cases hsub : submitTask ex s opItem with
      | mk poi s1 =>
        cases poi with
        | none =>
            simp only [sweep, sweepResults, hsub]
            rw [ih]
            simp
        | some p =>
            simp only [sweep, sweepResults, hsub]
            rw [ih]
            simp

/-- The state after the sweep does not depend on the queue it appends to. -/
theorem sweep_state {σ : Type} (ex : Externals σ) (stage : List OperationItem)
    (s : SchedState σ) (queue : List OperationItem) :
    (sweep ex s stage queue).2 = (sweep ex s stage []).2 := by
  induction stage generalizing s queue with
  | nil => simp [sweep]
  | cons opItem stage ih =>
      cases hsub : submitTask ex s opItem with
      | mk poi s1 =>
        cases poi with
        | none => simp only [sweep, hsub]; exact ih s1 queue
        | some p =>
            simp only [sweep, hsub]
            rw [ih s1 (queue ++ [p]), ih s1 ([] ++ [p])]

/-- The sweep calls `submitTask` on every opItem of the stage, in order. -/
theorem sweepResults_items {σ : Type} (ex : Externals σ) (stage : List OperationItem)
    (s : SchedState σ) : (sweepResults ex s stage).map Prod.fst = stage := by
  induction stage generalizing s with
  | nil => rfl
  | cons opItem stage ih => simp [sweepResults, ih]

/-- Under the contract of `runTask`, the non-null results of a sweep are the
opItems of the stage for which the result was non-null. -/
theorem sweepResults_kept {σ : Type} (ex : Externals σ) (hrun : RunTaskContract ex)
    (stage : List OperationItem) (s : SchedState σ) :
    (sweepResults ex s stage).filterMap (fun p => p.2)
      = ((sweepResults ex s stage).filter (fun p => p.2.isSome)).map Prod.fst := by
  induction stage generalizing s with
  | nil => rfl
  | cons opItem stage ih =>
      rcases submitTask_result ex hrun s opItem with h | h
      · simp [sweepResults, h, ih]
      · simp [sweepResults, h, ih]

/-- The number of non-null results plus the number of null results is the
length of the stage. -/
theorem sweepResults_count {σ : Type} (ex : Externals σ) (stage : List OperationItem)
    (s : SchedState σ) :
    ((sweepResults ex s stage).filterMap (fun p => p.2)).length
      + (sweepResults ex s stage).countP (fun p => p.2.isNone) = stage.length := by
  induction stage generalizing s with
  | nil => rfl
  | cons opItem stage ih =>
      cases h : (submitTask ex s opItem).1 with
      | none =>
          have := ih (submitTask ex s opItem).2
          simp [sweepResults, h, List.filterMap_cons, List.countP_cons]
          omega
      | some p =>
          have := ih (submitTask ex s opItem).2
          simp [sweepResults, h, List.filterMap_cons, List.countP_cons]
          omega

/-! ### `submitAllTaskFromQueue` -/

/-- The block "update queue head waiting" stores the queue it is given. -/
theorem updateHeadWaiting_bgQueue (item : SessionItem) (queue : List OperationItem)
    (scheduled : Nat) : (updateHeadWaiting item queue scheduled).bgQueue = queue := by
  cases queue with
  | nil => rfl
  | cons front rest =>
      by_cases h : front.hashVal = item.queueHeadHash
      · simp [updateHeadWaiting, h]
      · simp [updateHeadWaiting, h]

/-- The normal sweep on a non-empty queue, unfolded: the new queue holds the
non-null results of the `submitTask` calls. -/
theorem submitAllTaskFromQueue_normal {σ : Type} (ex : Externals σ) (s : SchedState σ)
    (item : SessionItem) (hne : item.bgQueue ≠ [])
    (hhol : item.holWaiting ≤ ex.maxHolWaiting) :
    submitAllTaskFromQueue ex s item
      = (item.bgQueue.length
            - ((sweepResults ex s item.bgQueue).filterMap (fun p => p.2)).length,
          updateHeadWaiting item ((sweepResults ex s item.bgQueue).filterMap (fun p => p.2))
            (item.bgQueue.length
              - ((sweepResults ex s item.bgQueue).filterMap (fun p => p.2)).length),
          (sweep ex s item.bgQueue []).2) := by
  have hnot : ¬ item.holWaiting > ex.maxHolWaiting := Nat.not_lt.mpr hhol
  cases hq : item.bgQueue with
  | nil => exact absurd hq hne
  | cons head tail =>
      simp only [submitAllTaskFromQueue, hq, hnot, if_false]
      rw [sweep_queue]
      simp

/-- The queue after a call on a session within the HOL bound (empty queue or
normal sweep) holds the non-null results of the `submitTask` calls, and the call
returns the number of opItems that left the queue. -/
theorem submitAllTaskFromQueue_sweep {σ : Type} (ex : Externals σ) (s : SchedState σ)
    (item : SessionItem) (hhol : item.holWaiting ≤ ex.maxHolWaiting) :
    (submitAllTaskFromQueue ex s item).2.1.bgQueue
        = (sweepResults ex s item.bgQueue).filterMap (fun p => p.2) ∧
      (submitAllTaskFromQueue ex s item).1
        = item.bgQueue.length - (submitAllTaskFromQueue ex s item).2.1.bgQueue.length := by
  by_cases hne : item.bgQueue = []
  · simp [submitAllTaskFromQueue, hne, sweepResults]
  · rw [submitAllTaskFromQueue_normal ex s item hne hhol]
    simp [updateHeadWaiting_bgQueue]

/-- C2: in a normal sweep (under the contract of `runTask`: null or the opItem
it was given) the queue after `submitAllTaskFromQueue` is exactly the
sub-sequence of the queue before the call made of the opItems for which
`submitTask` returned non-null, in their original order; `submitTask` is called
on the opItems of the queue in queue order. -/
theorem submitAllTaskFromQueue_keeps_order {σ : Type} (ex : Externals σ)
    (hrun : RunTaskContract ex) (s : SchedState σ) (item : SessionItem)
    (hhol : item.holWaiting ≤ ex.maxHolWaiting) :
    (submitAllTaskFromQueue ex s item).2.1.bgQueue
        = ((sweepResults ex s item.bgQueue).filter (fun p => p.2.isSome)).map Prod.fst ∧
      (sweepResults ex s item.bgQueue).map Prod.fst = item.bgQueue ∧
      List.Sublist (submitAllTaskFromQueue ex s item).2.1.bgQueue item.bgQueue := by
  have hq := (submitAllTaskFromQueue_sweep ex s item hhol).1
  have hk := sweepResults_kept ex hrun item.bgQueue s
  have hi := sweepResults_items ex item.bgQueue s
  refine ⟨hq.trans hk, hi, ?_⟩
  rw [hq, hk]
  have hsub : List.Sublist
      (((sweepResults ex s item.bgQueue).filter (fun p => p.2.isSome)).map Prod.fst)
      ((sweepResults ex s item.bgQueue).map Prod.fst) :=
    List.Sublist.map Prod.fst (List.filter_sublist (sweepResults ex s item.bgQueue))
  rw [hi] at hsub
  exact hsub

/-- Witness of C2 (scenario S4): queue `[opA, opB, opD]` with only `opB`
dispatched leaves `[opA, opD]`. -/
theorem submitAllTaskFromQueue_keeps_order_witness :
    (submitAllTaskFromQueue exDemo sDemo itemOrder).2.1.bgQueue = [opA, opD] ∧
    (submitAllTaskFromQueue exDemo sDemo itemOrder).2.1.bgQueue
        = ((sweepResults exDemo sDemo itemOrder.bgQueue).filter
            (fun p => p.2.isSome)).map Prod.fst ∧
      (sweepResults exDemo sDemo itemOrder.bgQueue).map Prod.fst = itemOrder.bgQueue ∧
      List.Sublist (submitAllTaskFromQueue exDemo sDemo itemOrder).2.1.bgQueue
        itemOrder.bgQueue :=
  ⟨by decide,
    submitAllTaskFromQueue_keeps_order exDemo (fun _ _ => Or.inl rfl) sDemo itemOrder
      (by decide)⟩

/-- C3: in a normal sweep the value returned by `submitAllTaskFromQueue` is the
queue length before the call minus the queue length after it (the queue does
not grow), which is the number of opItems for which `submitTask` returned null;
for an empty queue the call returns 0. -/
theorem submitAllTaskFromQueue_returns_count {σ : Type} (ex : Externals σ)
    (s : SchedState σ) (item : SessionItem)
    (hhol : item.holWaiting ≤ ex.maxHolWaiting) :
    (submitAllTaskFromQueue ex s item).1
        = item.bgQueue.length - (submitAllTaskFromQueue ex s item).2.1.bgQueue.length ∧
      (submitAllTaskFromQueue ex s item).2.1.bgQueue.length ≤ item.bgQueue.length ∧
      (submitAllTaskFromQueue ex s item).1
        = (sweepResults ex s item.bgQueue).countP (fun p => p.2.isNone) ∧
      (∀ (s0 : SchedState σ) (item0 : SessionItem), item0.bgQueue = [] →
        (submitAllTaskFromQueue ex s0 item0).1 = 0) := by
  obtain ⟨hq, hn⟩ := submitAllTaskFromQueue_sweep ex s item hhol
  have hc := sweepResults_count ex item.bgQueue s
  rw [← hq] at hc
  refine ⟨hn, by omega, by omega, ?_⟩
  intro s0 item0 h0
  simp [submitAllTaskFromQueue, h0]

/-- Witness of C3: the sweep of scenario S3 returns 2 = 3 - 1, and the call
on an empty queue returns 0. -/
theorem submitAllTaskFromQueue_returns_count_witness :
    (submitAllTaskFromQueue exDemo sDemo itemDemo).1 = 2 ∧
    (submitAllTaskFromQueue exDemo sDemo itemEmpty).1 = 0 ∧
    (submitAllTaskFromQueue exDemo sDemo itemDemo).1
      = (sweepResults exDemo sDemo itemDemo.bgQueue).countP (fun p => p.2.isNone) :=
  ⟨by decide,
    (submitAllTaskFromQueue_returns_count exDemo sDemo itemDemo (by decide)).2.2.2
      sDemo itemEmpty rfl,
    (submitAllTaskFromQueue_returns_count exDemo sDemo itemDemo (by decide)).2.2.1⟩

/-- What the block "update queue head waiting" leaves in the counters. -/
theorem updateHeadWaiting_counters (item : SessionItem) (queue : List OperationItem)
    (scheduled : Nat) :
    ((updateHeadWaiting item queue scheduled).bgQueue = [] →
        (updateHeadWaiting item queue scheduled).queueHeadHash = 0 ∧
        (updateHeadWaiting item queue scheduled).holWaiting = 0) ∧
      (∀ front rest, (updateHeadWaiting item queue scheduled).bgQueue = front :: rest →
        (front.hashVal = item.queueHeadHash →
          (updateHeadWaiting item queue scheduled).holWaiting = item.holWaiting + scheduled ∧
          (updateHeadWaiting item queue scheduled).queueHeadHash = item.queueHeadHash) ∧
        (front.hashVal ≠ item.queueHeadHash →
          (updateHeadWaiting item queue scheduled).queueHeadHash = front.hashVal ∧
          (updateHeadWaiting item queue scheduled).holWaiting = 0)) := by
  rw [updateHeadWaiting_bgQueue]
  cases queue with
  | nil =>
      refine ⟨fun _ => ⟨rfl, rfl⟩, ?_⟩
      intro front rest h
      simp at h
  | cons hd tl =>
      refine ⟨fun h => by simp at h, ?_⟩
      intro front rest h
      simp only [List.cons.injEq] at h
      obtain ⟨h1, _⟩ := h
      subst h1
      constructor
      · intro heq
        simp [updateHeadWaiting, heq]
      · intro hneq
        simp [updateHeadWaiting, hneq]

/-- On a non-empty queue the session item after the call is the one written by
the block "update queue head waiting", run with the value the call returns. -/
theorem submitAllTaskFromQueue_update {σ : Type} (ex : Externals σ) (s : SchedState σ)
    (item : SessionItem) (hne : item.bgQueue ≠ []) :
    ∃ queue, (submitAllTaskFromQueue ex s item).2.1
      = updateHeadWaiting item queue (submitAllTaskFromQueue ex s item).1 := by
  by_cases hhol : item.holWaiting ≤ ex.maxHolWaiting
  · rw [submitAllTaskFromQueue_normal ex s item hne hhol]
    exact ⟨_, rfl⟩
  · have hgt : item.holWaiting > ex.maxHolWaiting := Nat.not_le.mp hhol
    cases hq : item.bgQueue with
    | nil => exact absurd hq hne
    | cons head tail =>
        cases hsub : submitTask ex s head with
        | mk poi s1 =>
          cases poi with
          | none =>
              simp only [submitAllTaskFromQueue, hq, hgt, if_true, hsub]
              exact ⟨_, rfl⟩
          | some head1 =>
              simp only [submitAllTaskFromQueue, hq, hgt, if_true, hsub]
              exact ⟨_, rfl⟩

/-- C4: after a `submitAllTaskFromQueue` call on a session whose queue was
non-empty at entry, with `scheduled` the value returned: an empty queue gives
`queueHeadHash = 0` and `holWaiting = 0`; a head whose hash equals the
`queueHeadHash` held before the call makes `holWaiting` grow by exactly
`scheduled` and leaves `queueHeadHash` unchanged; any other head sets
`queueHeadHash` to its hash and `holWaiting` to 0. -/
theorem submitAllTaskFromQueue_head_waiting {σ : Type} (ex : Externals σ)
    (s : SchedState σ) (item : SessionItem) (hne : item.bgQueue ≠ []) :
    ((submitAllTaskFromQueue ex s item).2.1.bgQueue = [] →
        (submitAllTaskFromQueue ex s item).2.1.queueHeadHash = 0 ∧
        (submitAllTaskFromQueue ex s item).2.1.holWaiting = 0) ∧
      (∀ front rest, (submitAllTaskFromQueue ex s item).2.1.bgQueue = front :: rest →
        (front.hashVal = item.queueHeadHash →
          (submitAllTaskFromQueue ex s item).2.1.holWaiting
            = item.holWaiting + (submitAllTaskFromQueue ex s item).1 ∧
          (submitAllTaskFromQueue ex s item).2.1.queueHeadHash = item.queueHeadHash) ∧
        (front.hashVal ≠ item.queueHeadHash →
          (submitAllTaskFromQueue ex s item).2.1.queueHeadHash = front.hashVal ∧
          (submitAllTaskFromQueue ex s item).2.1.holWaiting = 0)) := by
  obtain ⟨queue, hu⟩ := submitAllTaskFromQueue_update ex s item hne
  rw [hu]
  exact updateHeadWaiting_counters item queue _

/-- Witness of C4: on the fresh session of scenario S3 the head `opA` stays,
its hash 101 differs from the stored 0, so the hash is stored and the counter
is 0. -/
theorem submitAllTaskFromQueue_head_waiting_witness :
    itemDemo.bgQueue ≠ [] ∧
      (submitAllTaskFromQueue exDemo sDemo itemDemo).2.1.queueHeadHash = 101 ∧
      (submitAllTaskFromQueue exDemo sDemo itemDemo).2.1.holWaiting = 0 :=
  ⟨by decide,
    ((submitAllTaskFromQueue_head_waiting exDemo sDemo itemDemo (by decide)).2 opA []
      (by decide)).2 (by decide)⟩

/-- C5: on a session with a non-empty queue and `holWaiting > maxHolWaiting`,
`submitAllTaskFromQueue` makes exactly the one `submitTask` call on the queue
head (the state after the call is the state after that `submitTask`).  If it
returns null the head is popped, the rest of the queue is unchanged and the call
returns 1; otherwise (under the contract of `runTask`) the queue is unchanged
and the call returns 0. -/
theorem submitAllTaskFromQueue_overflow {σ : Type} (ex : Externals σ)
    (hrun : RunTaskContract ex) (s : SchedState σ) (item : SessionItem)
    (head : OperationItem) (tail : List OperationItem) (hq : item.bgQueue = head :: tail)
    (hhol : ex.maxHolWaiting < item.holWaiting) :
    (submitAllTaskFromQueue ex s item).2.2 = (submitTask ex s head).2 ∧
      submitCalls (submitAllTaskFromQueue ex s item).2.2.trace = submitCalls s.trace ++ [head] ∧
      ((submitTask ex s head).1 = none →
        (submitAllTaskFromQueue ex s item).2.1.bgQueue = tail ∧
        (submitAllTaskFromQueue ex s item).1 = 1) ∧
      ((submitTask ex s head).1 ≠ none →
        (submitAllTaskFromQueue ex s item).2.1.bgQueue = head :: tail ∧
        (submitAllTaskFromQueue ex s item).1 = 0) := by
  have hgt : item.holWaiting > ex.maxHolWaiting := hhol
  have hcalls := submitTask_submitCalls ex s head
  have hres := submitTask_result ex hrun s head
  cases hsub : submitTask ex s head with
  | mk poi s1 =>
    rw [hsub] at hcalls hres
    simp only at hcalls hres
    cases poi with
    | none =>
        simp only [submitAllTaskFromQueue, hq, hgt, if_true, hsub, updateHeadWaiting_bgQueue]
        exact ⟨trivial, hcalls, fun _ => ⟨trivial, trivial⟩, fun h => absurd rfl h⟩
    | some head1 =>
        have hsame : head1 = head := by
          rcases hres with h | h
          · simp at h
          · exact Option.some.inj h
        subst hsame
        simp only [submitAllTaskFromQueue, hq, hgt, if_true, hsub, updateHeadWaiting_bgQueue]
        exact ⟨trivial, hcalls, fun h => by simp at h, fun _ => ⟨trivial, trivial⟩⟩

/-- Witness of C5: with `holWaiting = 3 > 2` and queue `[opA, opB]`, only `opA`
is tried; it does not fit, the queue is unchanged and the call returns 0. -/
theorem submitAllTaskFromQueue_overflow_witness :
    exDemo.maxHolWaiting < itemOverflow.holWaiting ∧
      submitCalls (submitAllTaskFromQueue exDemo sDemo itemOverflow).2.2.trace = [opA] ∧
      (submitAllTaskFromQueue exDemo sDemo itemOverflow).2.1.bgQueue = [opA, opB] ∧
      (submitAllTaskFromQueue exDemo sDemo itemOverflow).1 = 0 :=
  ⟨by decide,
    (submitAllTaskFromQueue_overflow exDemo (fun _ _ => Or.inl rfl) sDemo itemOverflow
      opA [opB] rfl (by decide)).2.1,
    (submitAllTaskFromQueue_overflow exDemo (fun _ _ => Or.inl rfl) sDemo itemOverflow
      opA [opB] rfl (by decide)).2.2.2 (by decide)⟩

/-! ### Scenario S3 and the HOL counter over a run -/

/-- C6, as stated, fails: on the fresh session of scenario S3
(`maxHolWaiting = 2`, `holWaiting = 0`, `queueHeadHash = 0`, queue
`[opA, opB, opC]`, `opA` handed back, `opB` and `opC` consumed) the queue after
one call is `[opA]` but `holWaiting` is 0, not 2. -/
theorem scenario_S3_holWaiting_not_2 :
    exDemo.maxHolWaiting = 2 ∧ itemDemo.holWaiting = 0 ∧ itemDemo.queueHeadHash = 0 ∧
      itemDemo.bgQueue = [opA, opB, opC] ∧
      sweepResults exDemo sDemo [opA, opB, opC] = [(opA, some opA), (opB, none), (opC, none)] ∧
      (submitAllTaskFromQueue exDemo sDemo itemDemo).2.1.bgQueue = [opA] ∧
      (submitAllTaskFromQueue exDemo sDemo itemDemo).2.1.holWaiting = 0 ∧
      (submitAllTaskFromQueue exDemo sDemo itemDemo).2.1.holWaiting ≠ 2 := by
  decide

/-- C6, amended: with `maxHolWaiting = 2` and a newly created session
(`holWaiting = 0`, `queueHeadHash = 0`, the head not observed before: its
hash is not 0) whose queue is `[A, B, C]`, if `submitTask` hands `A` back and
consumes `B` and `C`, then after one call the queue is `[A]`, the call returns
2, `queueHeadHash` is the hash of `A` and `holWaiting` is 0. -/
theorem scenario_S3_first_iteration {σ : Type} (ex : Externals σ) (s : SchedState σ)
    (item : SessionItem) (A B C : OperationItem)
    (hmax : ex.maxHolWaiting = 2) (hhol : item.holWaiting = 0)
    (hhash : item.queueHeadHash = 0) (hnew : A.hashVal ≠ 0)
    (hq : item.bgQueue = [A, B, C])
    (hres : sweepResults ex s [A, B, C] = [(A, some A), (B, none), (C, none)]) :
    (submitAllTaskFromQueue ex s item).2.1.bgQueue = [A] ∧
      (submitAllTaskFromQueue ex s item).1 = 2 ∧
      (submitAllTaskFromQueue ex s item).2.1.queueHeadHash = A.hashVal ∧
      (submitAllTaskFromQueue ex s item).2.1.holWaiting = 0 := by
  have hne : item.bgQueue ≠ [] := by rw [hq]; simp
  have hle : item.holWaiting ≤ ex.maxHolWaiting := by omega
  rw [submitAllTaskFromQueue_normal ex s item hne hle, hq, hres]
  have hnew0 : ¬ A.hashVal = item.queueHeadHash := by rw [hhash]; exact hnew
  simp [updateHeadWaiting, hnew0]

/-- Witness of the amended C6 on the concrete scenario. -/
theorem scenario_S3_first_iteration_witness :
    (submitAllTaskFromQueue exDemo sDemo itemDemo).2.1.bgQueue = [opA] ∧
      (submitAllTaskFromQueue exDemo sDemo itemDemo).1 = 2 ∧
      (submitAllTaskFromQueue exDemo sDemo itemDemo).2.1.queueHeadHash = opA.hashVal ∧
      (submitAllTaskFromQueue exDemo sDemo itemDemo).2.1.holWaiting = 0 :=
  scenario_S3_first_iteration exDemo sDemo itemDemo opA opB opC rfl rfl rfl (by decide) rfl
    (by decide)

/-- One stuck call: the head stays at the head of the queue, its hash is the
stored hash afterwards, and the counter grows by the returned value when the
hash was already the stored one. -/
theorem stuckCall_step {σ : Type} (ex : Externals σ) (s : SchedState σ) (item : SessionItem)
    (head : OperationItem) (tail : List OperationItem) (hq : item.bgQueue = head :: tail)
    (hstuck : StuckCall ex s item) :
    (∃ rest, (submitAllTaskFromQueue ex s item).2.1.bgQueue = head :: rest) ∧
      (submitAllTaskFromQueue ex s item).2.1.queueHeadHash = head.hashVal ∧
      1 ≤ (submitAllTaskFromQueue ex s item).1 ∧
      (head.hashVal = item.queueHeadHash →
        (submitAllTaskFromQueue ex s item).2.1.holWaiting
          = item.holWaiting + (submitAllTaskFromQueue ex s item).1) := by
  obtain ⟨h, t, hq2, hback, hone⟩ := hstuck
  rw [hq] at hq2
  simp only [List.cons.injEq] at hq2
  obtain ⟨hh, _⟩ := hq2
  subst hh
  have hne : item.bgQueue ≠ [] := by rw [hq]; simp
  by_cases hhol : item.holWaiting ≤ ex.maxHolWaiting
  · refine ⟨?_, ?_, hone, ?_⟩
    · rw [submitAllTaskFromQueue_normal ex s item hne hhol, hq]
      simp [updateHeadWaiting_bgQueue, sweepResults, hback]
    · rw [submitAllTaskFromQueue_normal ex s item hne hhol, hq]
      by_cases heq : head.hashVal = item.queueHeadHash
      · simp [sweepResults, hback, updateHeadWaiting, heq]
      · simp [sweepResults, hback, updateHeadWaiting, heq]
    · intro heq
      obtain ⟨queue, hu⟩ := submitAllTaskFromQueue_update ex s item hne
      have hb : (submitAllTaskFromQueue ex s item).2.1.bgQueue
          = head :: (sweepResults ex (submitTask ex s head).2 tail).filterMap (fun p => p.2) := by
        rw [submitAllTaskFromQueue_normal ex s item hne hhol, hq]
        simp [updateHeadWaiting_bgQueue, sweepResults, hback]
      have hc := ((updateHeadWaiting_counters item queue _).2 head _
        (by rw [← hu]; exact hb)).1 heq
      rw [hu]
      exact hc.1
  · have hgt : item.holWaiting > ex.maxHolWaiting := Nat.not_le.mp hhol
    have hzero : (submitAllTaskFromQueue ex s item).1 = 0 := by
      cases hsub : submitTask ex s head with
      | mk poi s1 =>
        rw [hsub] at hback
        simp only at hback
        subst hback
        simp only [submitAllTaskFromQueue, hq, hgt, if_true, hsub]
    omega

/-- Along a run that starts with the head already observed (its hash is the
stored hash), every call adds at least 1 to `holWaiting`. -/
theorem run_synchronised {σ : Type} (ex : Externals σ)
    (calls : List (SchedState σ × List OperationItem)) :
    ∀ (item : SessionItem) (after : List SessionItem) (head : OperationItem)
      (tail : List OperationItem), item.bgQueue = head :: tail →
      head.hashVal = item.queueHeadHash → IsRun ex item calls after →
      after.length = calls.length ∧
        ∀ last, after.getLast? = some last → item.holWaiting + calls.length ≤ last.holWaiting := by
  induction calls with
  | nil =>
      intro item after head tail _ _ hrun
      simp only [IsRun] at hrun
      subst hrun
      simp
  | cons c cs ih =>
      intro item after head tail hq hsync hrun
      obtain ⟨s, enqueued⟩ := c
      simp only [IsRun] at hrun
      obtain ⟨hstuck, rest, hafter, hrest⟩ := hrun
      have hq1 : ({ item with bgQueue := item.bgQueue ++ enqueued } : SessionItem).bgQueue
          = head :: (tail ++ enqueued) := by simp [hq]
      obtain ⟨⟨rest1, hb⟩, hh, hone, hgrow⟩ :=
        stuckCall_step ex s { item with bgQueue := item.bgQueue ++ enqueued } head
          (tail ++ enqueued) hq1 hstuck
      have hw := hgrow hsync
      simp only at hw
      obtain ⟨hlen, hlast⟩ := ih _ rest head rest1 hb hh.symm hrest
      subst hafter
      refine ⟨by simp [hlen], ?_⟩
      intro last hl
      cases rest with
      | nil =>
          simp only [List.getLast?_singleton, Option.some.injEq] at hl
          subst hl
          simp only [List.length_nil] at hlen
          have hcs : cs.length = 0 := hlen.symm
          simp only [List.length_cons, hcs]
          omega
      | cons r1 rs =>
          rw [List.getLast?_cons_cons] at hl
          have := hlast last hl
          simp only [List.length_cons]
          omega

/-- C7, as stated, fails: a run of k = 2 calls on a fresh session in which the
head `opA` is never dispatched and each call dispatches one other opItem
(`opB`, then `opC`) leaves `holWaiting` at 0 and then 1, never at 2 or more. -/
theorem holWaiting_below_run_length :
    IsRun exDemo itemRun [(sDemo, []), (sDemo, [opC])] [itemRun1, itemRun2] ∧
      itemRun1.holWaiting < 2 ∧ itemRun2.holWaiting < 2 := by
  refine ⟨?_, by decide, by decide⟩
  simp only [IsRun]
  refine ⟨⟨opA, [opB], by decide, by decide, by decide⟩, [itemRun2], by decide, ?_⟩
  refine ⟨⟨opA, [opC], by decide, by decide, by decide⟩, [], by decide, rfl⟩

/-- C7, amended: for every k ≥ 1 and every run of k consecutive
`submitAllTaskFromQueue` calls on one session in which the queue head is never
dispatched and every call dispatches at least one other opItem,
`holWaiting ≥ k - 1` holds after the last call; when the head had been observed
before the run (`queueHeadHash` is its hash), `holWaiting` is at least its value
before the run plus k. -/
theorem holWaiting_after_run {σ : Type} (ex : Externals σ) (item : SessionItem)
    (calls : List (SchedState σ × List OperationItem)) (after : List SessionItem)
    (hrun : IsRun ex item calls after) (hk : 1 ≤ calls.length) :
    ∃ last, after.getLast? = some last ∧ calls.length - 1 ≤ last.holWaiting ∧
      ((∃ head tail, item.bgQueue = head :: tail ∧ head.hashVal = item.queueHeadHash) →
        item.holWaiting + calls.length ≤ last.holWaiting) := by
  cases calls with
  | nil => simp at hk
  | cons c cs =>
      obtain ⟨s, enqueued⟩ := c
      have hrun0 := hrun
      simp only [IsRun] at hrun
      obtain ⟨hstuck, rest, hafter, hrest⟩ := hrun
      obtain ⟨head, tail, hq1, hback, hone1⟩ := hstuck
      obtain ⟨⟨rest1, hb⟩, hh, hone, _⟩ :=
        stuckCall_step ex s { item with bgQueue := item.bgQueue ++ enqueued } head tail hq1
          ⟨head, tail, hq1, hback, hone1⟩
      obtain ⟨hlen, hlast⟩ := run_synchronised ex cs _ rest head rest1 hb hh.symm hrest
      have hsome : ∃ last, after.getLast? = some last := by
        subst hafter
        cases rest with
        | nil => exact ⟨_, rfl⟩
        | cons r1 rs =>
            have hne : (r1 :: rs) ≠ [] := by simp
            exact ⟨(r1 :: rs).getLast hne, by
              rw [List.getLast?_cons_cons, List.getLast?_eq_getLast _ hne]⟩
      obtain ⟨last, hl⟩ := hsome
      refine ⟨last, hl, ?_, ?_⟩
      · subst hafter
        cases rest with
        | nil =>
            simp only [List.length_nil] at hlen
            have hcs : cs.length = 0 := hlen.symm
            simp only [List.length_cons, hcs]
            omega
        | cons r1 rs =>
            rw [List.getLast?_cons_cons] at hl
            have := hlast last hl
            simp only [List.length_cons]
            omega
      · rintro ⟨head0, tail0, hq0, hsync⟩
        exact (run_synchronised ex ((s, enqueued) :: cs) item after head0 tail0 hq0 hsync
          hrun0).2 last hl

/-- Witness of the amended C7: one call on the session `itemRun1`, whose head
`opA` has been observed, with `opC` enqueued: `holWaiting` goes from 0 to 1. -/
theorem holWaiting_after_run_witness :
    ∃ last, [itemRun2].getLast? = some last ∧ 1 - 1 ≤ last.holWaiting ∧
      itemRun1.holWaiting + 1 ≤ last.holWaiting := by
  obtain ⟨last, h1, h2, h3⟩ :=
    holWaiting_after_run exDemo itemRun1 [(sDemo, [opC])] [itemRun2]
      (by
        simp only [IsRun]
        exact ⟨⟨opA, [opC], by decide, by decide, by decide⟩, [], by decide, rfl⟩)
      (by decide)
  exact ⟨last, h1, h2, h3 ⟨opA, [], rfl, rfl⟩⟩

/-! ### Dead sessions -/

/-- A sweep over opItems whose sessions are gone appends nothing to the queue
and changes nothing but the ghost record of the `submitTask` calls. -/
theorem sweep_dead {σ : Type} (ex : Externals σ) (stage : List OperationItem) :
    ∀ (s : SchedState σ) (queue : List OperationItem),
      (∀ opItem ∈ stage, ex.lock s.world opItem.sess = false) →
      (sweep ex s stage queue).1 = queue ∧
        (sweep ex s stage queue).2.world = s.world ∧
        (sweep ex s stage queue).2.missingRes = s.missingRes ∧
        (sweep ex s stage queue).2.tickets = s.tickets ∧
        collaboratorCalls (sweep ex s stage queue).2.trace = collaboratorCalls s.trace := by
  induction stage with
  | nil => intro s queue _; simp [sweep]
  | cons opItem stage ih =>
      intro s queue hdead
      have h1 := submitTask_dead ex s opItem (hdead opItem (List.mem_cons_self _ _))
      have hrest : ∀ o ∈ stage,
          ex.lock (s.log (Event.submitTask opItem)).world o.sess = false :=
        fun o ho => hdead o (List.mem_cons_of_mem _ ho)
      obtain ⟨hq, hw, hm, ht, hc⟩ := ih (s.log (Event.submitTask opItem)) queue hrest
      simp only [sweep, h1]
      refine ⟨hq, hw, hm, ht, ?_⟩
      rw [hc]
      simp [SchedState.log, collaboratorCalls_append, collaboratorCalls]

/-- C8: for every opItem whose session is gone, `submitTask` returns null, and
leaves the world of the collaborators, the missing-resource table and every
ticket set unchanged, without any call to `estimatedUsage`,
`makeResourceContext`, `prepare` or `runTask`; hence a normal sweep over a queue
of n such opItems returns n, leaves the queue empty and changes none of these
either. -/
theorem submitTask_session_gone {σ : Type} (ex : Externals σ) (s : SchedState σ)
    (item : SessionItem)
    (hdead : ∀ opItem ∈ item.bgQueue, ex.lock s.world opItem.sess = false)
    (hhol : item.holWaiting ≤ ex.maxHolWaiting) :
    (∀ opItem, ex.lock s.world opItem.sess = false →
        (submitTask ex s opItem).1 = none ∧
        (submitTask ex s opItem).2.world = s.world ∧
        (submitTask ex s opItem).2.missingRes = s.missingRes ∧
        (submitTask ex s opItem).2.tickets = s.tickets ∧
        collaboratorCalls (submitTask ex s opItem).2.trace = collaboratorCalls s.trace) ∧
      (submitAllTaskFromQueue ex s item).1 = item.bgQueue.length ∧
      (submitAllTaskFromQueue ex s item).2.1.bgQueue = [] ∧
      (submitAllTaskFromQueue ex s item).2.2.world = s.world ∧
      (submitAllTaskFromQueue ex s item).2.2.missingRes = s.missingRes ∧
      (submitAllTaskFromQueue ex s item).2.2.tickets = s.tickets ∧
      collaboratorCalls (submitAllTaskFromQueue ex s item).2.2.trace
        = collaboratorCalls s.trace := by
  constructor
  · intro opItem hd
    rw [submitTask_dead ex s opItem hd]
    simp [SchedState.log, collaboratorCalls_append, collaboratorCalls]
  · by_cases hne : item.bgQueue = []
    · simp [submitAllTaskFromQueue, hne]
    · obtain ⟨hq, hw, hm, ht, hc⟩ := sweep_dead ex item.bgQueue s [] hdead
      have hres : (sweepResults ex s item.bgQueue).filterMap (fun p => p.2) = [] := by
        have := sweep_queue ex item.bgQueue s []
        rw [hq] at this
        simpa using this.symm
      rw [submitAllTaskFromQueue_normal ex s item hne hhol, hres]
      exact ⟨by simp, by simp [updateHeadWaiting], hw, hm, ht, hc⟩

/-- Witness of C8 (scenario S5): five opItems of a dead session; the sweep
returns 5 and empties the queue; no ticket, no table entry, no collaborator
call. -/
theorem submitTask_session_gone_witness :
    (submitTask exDemo sDemo (opDead 0)).1 = none ∧
      (submitAllTaskFromQueue exDemo sDemo itemDead).1 = 5 ∧
      (submitAllTaskFromQueue exDemo sDemo itemDead).2.1.bgQueue = [] ∧
      (submitAllTaskFromQueue exDemo sDemo itemDead).2.2.missingRes = [] ∧
      collaboratorCalls (submitAllTaskFromQueue exDemo sDemo itemDead).2.2.trace = [] :=
  ⟨((submitTask_session_gone exDemo sDemo itemDead (by decide) (by decide)).1 (opDead 0)
      (by decide)).1,
    (submitTask_session_gone exDemo sDemo itemDead (by decide) (by decide)).2.1,
    (submitTask_session_gone exDemo sDemo itemDead (by decide) (by decide)).2.2.1,
    (submitTask_session_gone exDemo sDemo itemDead (by decide) (by decide)).2.2.2.2.1,
    (submitTask_session_gone exDemo sDemo itemDead (by decide) (by decide)).2.2.2.2.2.2⟩

/-! ### The missing-resource table across device fallback -/

/-- A `maybePreAllocateFor` call in which `makeResourceContext` returns null:
the call fails and the missing map goes through `emplace`. -/
theorem maybePreAllocateFor_failed {σ : Type} (ex : Externals σ) (s : SchedState σ)
    (opItem : OperationItem) (spec : DeviceSpec) (missing : Resources) (w : σ)
    (hlive : ex.lock s.world opItem.sess = true)
    (hfail : ex.makeResourceContext s.world opItem.sess opItem.graphId spec
      (ex.estimatedUsage s.world opItem spec) = (Except.error missing, w)) :
    maybePreAllocateFor ex s opItem spec
      = (false,
          { world := w
            missingRes := emplace s.missingRes opItem.addr missing
            tickets := s.tickets
            trace := s.trace ++ [Event.estimatedUsage opItem spec] ++
              [Event.makeResourceContext opItem.sess opItem.graphId spec
                (ex.estimatedUsage s.world opItem spec)] }) := by
  simp only [maybePreAllocateFor, hlive, Bool.not_true, Bool.false_eq_true, if_false,
    SchedState.log, hfail]

/-- A `maybePreAllocateFor` call in which `makeResourceContext` and `prepare`
succeed: the table is not touched, the ticket is inserted. -/
theorem maybePreAllocateFor_succeeded {σ : Type} (ex : Externals σ) (s : SchedState σ)
    (opItem : OperationItem) (spec : DeviceSpec) (t : Nat) (w w3 : σ)
    (hlive : ex.lock s.world opItem.sess = true)
    (hok : ex.makeResourceContext s.world opItem.sess opItem.graphId spec
      (ex.estimatedUsage s.world opItem spec) = (Except.ok t, w))
    (hprep : ex.prepare w opItem t = (true, w3)) :
    maybePreAllocateFor ex s opItem spec
      = (true,
          { world := w3
            missingRes := s.missingRes
            tickets := Function.update s.tickets opItem.sess ((s.tickets opItem.sess).insert t)
            trace := s.trace ++ [Event.estimatedUsage opItem spec] ++
              [Event.makeResourceContext opItem.sess opItem.graphId spec
                (ex.estimatedUsage s.world opItem spec)] ++ [Event.prepare opItem t] ++
              [Event.ticketInsert opItem.sess t] }) := by
  simp only [maybePreAllocateFor, hlive, Bool.not_true, Bool.false_eq_true, if_false,
    SchedState.log, hok, hprep]

/-! ### Device order and commit -/

/-- A `maybePreAllocateFor` call that returns `true` found the session alive,
got a context from `makeResourceContext` and had it accepted by `prepare`. -/
theorem maybePreAllocateFor_true_inv {σ : Type} (ex : Externals σ) (s : SchedState σ)
    (opItem : OperationItem) (spec : DeviceSpec)
    (hok : (maybePreAllocateFor ex s opItem spec).1 = true) :
    ∃ t w w3, ex.lock s.world opItem.sess = true ∧
      ex.makeResourceContext s.world opItem.sess opItem.graphId spec
        (ex.estimatedUsage s.world opItem spec) = (Except.ok t, w) ∧
      ex.prepare w opItem t = (true, w3) := by
  by_cases hl : ex.lock s.world opItem.sess = true
  · cases hm : ex.makeResourceContext s.world opItem.sess opItem.graphId spec
        (ex.estimatedUsage s.world opItem spec) with
    | mk res w =>
      cases res with
      | error missing =>
          rw [maybePreAllocateFor_failed ex s opItem spec missing w hl hm] at hok
          simp at hok
      | ok t =>
          cases hp : ex.prepare w opItem t with
          | mk ok w3 =>
            cases ok with
            | true => exact ⟨t, w, w3, hl, rfl, hp⟩
            | false =>
                simp only [maybePreAllocateFor, hl, Bool.not_true, Bool.false_eq_true, if_false,
                  SchedState.log, hm, hp] at hok
  · simp only [Bool.not_eq_true] at hl
    simp [maybePreAllocateFor, hl] at hok

/-- Failed attempts leave the ticket sets alone and add to the trace only the
collaborator calls they made and the records of the failures. -/
theorem afterFailedAttempts_frame {σ : Type} (ex : Externals σ) (opItem : OperationItem)
    (specs : List DeviceSpec) :
    ∀ s : SchedState σ, attemptsAllFail ex opItem s specs = true →
      (afterFailedAttempts ex opItem s specs).tickets = s.tickets ∧
      ticketInserts (afterFailedAttempts ex opItem s specs).trace = ticketInserts s.trace ∧
      runTaskCalls (afterFailedAttempts ex opItem s specs).trace = runTaskCalls s.trace ∧
      preAllocCalls (afterFailedAttempts ex opItem s specs).trace
        = preAllocCalls s.trace ++ specs.map (fun x => (opItem, x, false)) := by
  induction specs with
  | nil => intro s _; simp [afterFailedAttempts]
  | cons spec rest ih =>
      intro s hall
      simp only [attemptsAllFail, Bool.and_eq_true, Bool.not_eq_true'] at hall
      obtain ⟨hfail, hrest⟩ := hall
      obtain ⟨htk, hti, hr, hp⟩ := ih _ hrest
      obtain ⟨evs, htr, _, hp1, hr1, hcase⟩ := maybePreAllocateFor_effect ex s opItem spec
      rcases hcase with ⟨ht, _⟩ | ⟨_, hti1, htk1⟩
      · rw [hfail] at ht
        simp at ht
      · simp only [afterFailedAttempts]
        refine ⟨?_, ?_, ?_, ?_⟩
        · rw [htk]; exact htk1
        · rw [hti]
          simp [SchedState.log, htr, ticketInserts_append, hti1, ticketInserts]
        · rw [hr]
          simp [SchedState.log, htr, runTaskCalls_append, hr1, runTaskCalls]
        · rw [hp]
          simp [SchedState.log, htr, preAllocCalls_append, hp1, preAllocCalls]

/-- The device loop is "first success in declared order": it returns `true`
exactly behind a run of failed `maybePreAllocateFor` calls followed by a
successful one, and `false` behind failed calls on every spec; its state is the
state these calls leave. -/
theorem deviceLoop_run {σ : Type} (ex : Externals σ) (opItem : OperationItem)
    (dts : List DeviceType) :
    ∀ s : SchedState σ,
      ((deviceLoop ex opItem s dts).1 = true →
        ∃ pre d post, specsToTry ex dts = pre ++ d :: post ∧
          attemptsAllFail ex opItem s pre = true ∧
          (maybePreAllocateFor ex (afterFailedAttempts ex opItem s pre) opItem d).1 = true ∧
          (deviceLoop ex opItem s dts).2 = afterFirstSuccess ex opItem s pre d) ∧
      ((deviceLoop ex opItem s dts).1 = false →
        attemptsAllFail ex opItem s (specsToTry ex dts) = true ∧
        (deviceLoop ex opItem s dts).2 = afterFailedAttempts ex opItem s (specsToTry ex dts)) := by
  induction dts with
  | nil =>
      intro s
      refine ⟨fun h => ?_, fun _ => ⟨rfl, rfl⟩⟩
      simp [deviceLoop] at h
  | cons dt rest ih =>
      intro s
      by_cases hskip : dt = DeviceType.GPU ∧ ex.useGPU = false
      · have hspecs : specsToTry ex (dt :: rest) = specsToTry ex rest := by
          have hd : (!decide (dt = DeviceType.GPU ∧ ex.useGPU = false)) = false := by
            simp only [hskip, and_self, decide_True, Bool.not_true]
          simp only [specsToTry, List.filter_cons, hd, Bool.false_eq_true, if_false]
        have hloop : deviceLoop ex opItem s (dt :: rest) = deviceLoop ex opItem s rest := by
          simp only [deviceLoop, hskip, and_self, if_true]
        rw [hloop, hspecs]
        exact ih s
      · have hspecs : specsToTry ex (dt :: rest)
            = { type := dt, id := 0 } :: specsToTry ex rest := by
          have hd : (!decide (dt = DeviceType.GPU ∧ ex.useGPU = false)) = true := by
            simp only [hskip, decide_False, Bool.not_false]
          simp only [specsToTry, List.filter_cons, hd, if_true, List.map_cons]
        cases hm : maybePreAllocateFor ex s opItem { type := dt, id := 0 } with
        | mk ok s1 =>
          cases ok with
          | true =>
              have hloop : deviceLoop ex opItem s (dt :: rest)
                  = (true, s1.log (Event.preAlloc opItem { type := dt, id := 0 } true)) := by
                simp only [deviceLoop, hskip, if_false, hm]
              rw [hloop, hspecs]
              refine ⟨fun _ => ⟨[], { type := dt, id := 0 }, specsToTry ex rest, rfl, rfl, ?_, ?_⟩,
                fun h => by simp at h⟩
              · simp [afterFailedAttempts, hm]
              · simp [afterFirstSuccess, afterFailedAttempts, hm]
          | false =>
              have hloop : deviceLoop ex opItem s (dt :: rest)
                  = deviceLoop ex opItem
                      (s1.log (Event.preAlloc opItem { type := dt, id := 0 } false)) rest := by
                simp only [deviceLoop, hskip, if_false, hm]
              rw [hloop, hspecs]
              obtain ⟨ih1, ih2⟩ :=
                ih (s1.log (Event.preAlloc opItem { type := dt, id := 0 } false))
              constructor
              · intro h
                obtain ⟨pre, d, post, hsp, hall, hok, hst⟩ := ih1 h
                refine ⟨{ type := dt, id := 0 } :: pre, d, post, by simp [hsp], ?_, ?_, ?_⟩
                · simp [attemptsAllFail, hm, hall]
                · simpa [afterFailedAttempts, hm] using hok
                · simpa [afterFirstSuccess, afterFailedAttempts, hm] using hst
              · intro h
                obtain ⟨hall, hst⟩ := ih2 h
                refine ⟨?_, ?_⟩
                · simp [attemptsAllFail, hm, hall]
                · simpa [afterFailedAttempts, hm] using hst

/-- The trace after the first success: the trace of the successful call and
the record of its success. -/
theorem afterFirstSuccess_trace {σ : Type} (ex : Externals σ) (opItem : OperationItem)
    (s : SchedState σ) (pre : List DeviceSpec) (d : DeviceSpec) :
    (afterFirstSuccess ex opItem s pre d).trace
      = (maybePreAllocateFor ex (afterFailedAttempts ex opItem s pre) opItem d).2.trace
          ++ [Event.preAlloc opItem d true] := rfl

/-- The record of a `submitTask` call is no attempt, no ticket insertion and no
`runTask` call. -/
theorem log_submitTask_calls {σ : Type} (s : SchedState σ) (opItem : OperationItem) :
    preAllocCalls (s.log (Event.submitTask opItem)).trace = preAllocCalls s.trace ∧
      runTaskCalls (s.log (Event.submitTask opItem)).trace = runTaskCalls s.trace ∧
      ticketInserts (s.log (Event.submitTask opItem)).trace = ticketInserts s.trace := by
  simp [SchedState.log, preAllocCalls_append, runTaskCalls_append, ticketInserts_append,
    preAllocCalls, runTaskCalls, ticketInserts]

/-- `submitTask` on a live session, unfolded along the device loop. -/
theorem submitTask_live_run {σ : Type} (ex : Externals σ) (s : SchedState σ)
    (opItem : OperationItem) (hlive : ex.lock s.world opItem.sess = true) :
    (∃ pre d post, eligibleSpecs ex opItem = pre ++ d :: post ∧
        attemptsAllFail ex opItem (s.log (Event.submitTask opItem)) pre = true ∧
        (maybePreAllocateFor ex
          (afterFailedAttempts ex opItem (s.log (Event.submitTask opItem)) pre) opItem d).1
            = true ∧
        submitTask ex s opItem
          = ((ex.runTask
                (afterFirstSuccess ex opItem (s.log (Event.submitTask opItem)) pre d).world
                opItem).1,
              { afterFirstSuccess ex opItem (s.log (Event.submitTask opItem)) pre d with
                world := (ex.runTask
                  (afterFirstSuccess ex opItem (s.log (Event.submitTask opItem)) pre d).world
                  opItem).2
                trace :=
                  (afterFirstSuccess ex opItem (s.log (Event.submitTask opItem)) pre d).trace
                    ++ [Event.runTask opItem] })) ∨
      (attemptsAllFail ex opItem (s.log (Event.submitTask opItem)) (eligibleSpecs ex opItem)
          = true ∧
        submitTask ex s opItem
          = (some opItem,
              afterFailedAttempts ex opItem (s.log (Event.submitTask opItem))
                (eligibleSpecs ex opItem))) := by
  have hn : (!ex.lock (s.log (Event.submitTask opItem)).world opItem.sess) = false := by
    simp [SchedState.log, hlive]
  obtain ⟨hrun1, hrun2⟩ :=
    deviceLoop_run ex opItem opItem.supportedDeviceTypes (s.log (Event.submitTask opItem))
  cases hd : deviceLoop ex opItem (s.log (Event.submitTask opItem))
      opItem.supportedDeviceTypes with
  | mk ok s1 =>
    rw [hd] at hrun1 hrun2
    simp only at hrun1 hrun2
    cases ok with
    | true =>
        obtain ⟨pre, d, post, hsp, hall, hok, hst⟩ := hrun1 rfl
        refine Or.inl ⟨pre, d, post, hsp, hall, hok, ?_⟩
        simp only [submitTask]
        rw [hn]
        simp only [Bool.false_eq_true, if_false, hd, hst]
    | false =>
        obtain ⟨hall, hst⟩ := hrun2 rfl
        refine Or.inr ⟨hall, ?_⟩
        simp only [submitTask]
        rw [hn]
        simp only [Bool.false_eq_true, if_false, hd, hst]
        rfl

/-- C9: for an opItem with a live session, `submitTask` attempts
`maybePreAllocateFor` on the specs `{type, id = 0}` of the declared device types
in order, GPU left out when `useGPU` is false, and stops at the first success.
Either the calls on the specs before some spec `d` of the list, made one after
the other, return `false`, the call on `d` returns `true`, no later spec is
tried, and the opItem goes to `runTask` in the state these calls leave; or the
calls on all the specs return `false` and the opItem is returned in the state
they leave, without `runTask`. -/
theorem submitTask_device_order {σ : Type} (ex : Externals σ) (s : SchedState σ)
    (opItem : OperationItem) (hlive : ex.lock s.world opItem.sess = true) :
    (eligibleSpecs ex opItem
        = if ex.useGPU = true then
            opItem.supportedDeviceTypes.map (fun dt => { type := dt, id := 0 })
          else
            (opItem.supportedDeviceTypes.filter (fun dt => decide (dt ≠ DeviceType.GPU))).map
              (fun dt => { type := dt, id := 0 })) ∧
      ((∃ pre d post, eligibleSpecs ex opItem = pre ++ d :: post ∧
          attemptsAllFail ex opItem (s.log (Event.submitTask opItem)) pre = true ∧
          (maybePreAllocateFor ex
            (afterFailedAttempts ex opItem (s.log (Event.submitTask opItem)) pre) opItem d).1
              = true ∧
          submitTask ex s opItem
            = ((ex.runTask
                  (afterFirstSuccess ex opItem (s.log (Event.submitTask opItem)) pre d).world
                  opItem).1,
                { afterFirstSuccess ex opItem (s.log (Event.submitTask opItem)) pre d with
                  world := (ex.runTask
                    (afterFirstSuccess ex opItem (s.log (Event.submitTask opItem)) pre d).world
                    opItem).2
                  trace :=
                    (afterFirstSuccess ex opItem (s.log (Event.submitTask opItem)) pre d).trace
                      ++ [Event.runTask opItem] }) ∧
          preAllocCalls (submitTask ex s opItem).2.trace
            = preAllocCalls s.trace ++ pre.map (fun x => (opItem, x, false))
                ++ [(opItem, d, true)] ∧
          runTaskCalls (submitTask ex s opItem).2.trace = runTaskCalls s.trace ++ [opItem]) ∨
        (attemptsAllFail ex opItem (s.log (Event.submitTask opItem)) (eligibleSpecs ex opItem)
            = true ∧
          submitTask ex s opItem
            = (some opItem,
                afterFailedAttempts ex opItem (s.log (Event.submitTask opItem))
                  (eligibleSpecs ex opItem)) ∧
          preAllocCalls (submitTask ex s opItem).2.trace
            = preAllocCalls s.trace
                ++ (eligibleSpecs ex opItem).map (fun x => (opItem, x, false)) ∧
          runTaskCalls (submitTask ex s opItem).2.trace = runTaskCalls s.trace)) := by
  constructor
  · cases hu : ex.useGPU with
    | true => simp [eligibleSpecs, specsToTry, hu]
    | false => simp [eligibleSpecs, specsToTry, hu]
  · obtain ⟨hp0, hr0, _⟩ := log_submitTask_calls s opItem
    rcases submitTask_live_run ex s opItem hlive with
      ⟨pre, d, post, hsp, hall, hok, hst⟩ | ⟨hall, hst⟩
    · obtain ⟨_, _, hr, hp⟩ :=
        afterFailedAttempts_frame ex opItem pre (s.log (Event.submitTask opItem)) hall
      obtain ⟨evs, htr, _, hp1, hr1, _⟩ :=
        maybePreAllocateFor_effect ex
          (afterFailedAttempts ex opItem (s.log (Event.submitTask opItem)) pre) opItem d
      refine Or.inl ⟨pre, d, post, hsp, hall, hok, hst, ?_, ?_⟩
      · rw [hst]
        simp only [afterFirstSuccess_trace, htr, preAllocCalls_append, hp1, hp, hp0]
        simp [preAllocCalls]
      · rw [hst]
        simp only [afterFirstSuccess_trace, htr, runTaskCalls_append, hr1, hr, hr0]
        simp [runTaskCalls]
    · obtain ⟨_, _, hr, hp⟩ :=
        afterFailedAttempts_frame ex opItem (eligibleSpecs ex opItem)
          (s.log (Event.submitTask opItem)) hall
      refine Or.inr ⟨hall, hst, ?_, ?_⟩
      · rw [hst]
        simp only [hp, hp0]
      · rw [hst]
        simp only [hr, hr0]

/-- Witness of C9: `opE` supports [GPU, CPU]; the call on GPU:0 fails, the call
on CPU:0 succeeds, and `opE` goes to `runTask`. -/
theorem submitTask_device_order_witness :
    eligibleSpecs exDemo opE
        = [{ type := DeviceType.GPU, id := 0 }, { type := DeviceType.CPU, id := 0 }] ∧
      (maybePreAllocateFor exDemo (sDemo.log (Event.submitTask opE)) opE
        { type := DeviceType.GPU, id := 0 }).1 = false ∧
      preAllocCalls (submitTask exDemo sDemo opE).2.trace
        = [(opE, { type := DeviceType.GPU, id := 0 }, false),
            (opE, { type := DeviceType.CPU, id := 0 }, true)] ∧
      ((∃ pre d post, eligibleSpecs exDemo opE = pre ++ d :: post ∧
          attemptsAllFail exDemo opE (sDemo.log (Event.submitTask opE)) pre = true ∧
          (maybePreAllocateFor exDemo
            (afterFailedAttempts exDemo opE (sDemo.log (Event.submitTask opE)) pre) opE d).1
              = true ∧
          submitTask exDemo sDemo opE
            = ((exDemo.runTask
                  (afterFirstSuccess exDemo opE (sDemo.log (Event.submitTask opE)) pre d).world
                  opE).1,
                { afterFirstSuccess exDemo opE (sDemo.log (Event.submitTask opE)) pre d with
                  world := (exDemo.runTask
                    (afterFirstSuccess exDemo opE (sDemo.log (Event.submitTask opE)) pre d).world
                    opE).2
                  trace :=
                    (afterFirstSuccess exDemo opE (sDemo.log (Event.submitTask opE)) pre d).trace
                      ++ [Event.runTask opE] }) ∧
          preAllocCalls (submitTask exDemo sDemo opE).2.trace
            = preAllocCalls sDemo.trace ++ pre.map (fun x => (opE, x, false))
                ++ [(opE, d, true)] ∧
          runTaskCalls (submitTask exDemo sDemo opE).2.trace
            = runTaskCalls sDemo.trace ++ [opE]) ∨
        (attemptsAllFail exDemo opE (sDemo.log (Event.submitTask opE)) (eligibleSpecs exDemo opE)
            = true ∧
          submitTask exDemo sDemo opE
            = (some opE,
                afterFailedAttempts exDemo opE (sDemo.log (Event.submitTask opE))
                  (eligibleSpecs exDemo opE)) ∧
          preAllocCalls (submitTask exDemo sDemo opE).2.trace
            = preAllocCalls sDemo.trace
                ++ (eligibleSpecs exDemo opE).map (fun x => (opE, x, false)) ∧
          runTaskCalls (submitTask exDemo sDemo opE).2.trace = runTaskCalls sDemo.trace)) :=
  ⟨by decide, by decide, by decide, (submitTask_device_order exDemo sDemo opE (by decide)).2⟩

/-- C10: for a `submitTask` call on an opItem with a live session, either some
attempt succeeds: `makeResourceContext` returned a context with ticket `t`,
`prepare` accepted it, exactly that one ticket is inserted into the ticket set
of the session, and the opItem is handed to `runTask` in the world `prepare`
left, the call returning what `runTask` returns in the world `runTask` leaves;
or every attempt fails: the state is the one the failed attempts leave,
`runTask` is not applied, no ticket is inserted, the ticket sets are unchanged
and the same opItem is returned. -/
theorem submitTask_commit_all_or_nothing {σ : Type} (ex : Externals σ) (s : SchedState σ)
    (opItem : OperationItem) (hlive : ex.lock s.world opItem.sess = true) :
    (∃ pre d post t w w3, eligibleSpecs ex opItem = pre ++ d :: post ∧
        attemptsAllFail ex opItem (s.log (Event.submitTask opItem)) pre = true ∧
        ex.makeResourceContext
          (afterFailedAttempts ex opItem (s.log (Event.submitTask opItem)) pre).world
          opItem.sess opItem.graphId d
          (ex.estimatedUsage
            (afterFailedAttempts ex opItem (s.log (Event.submitTask opItem)) pre).world
            opItem d) = (Except.ok t, w) ∧
        ex.prepare w opItem t = (true, w3) ∧
        (submitTask ex s opItem).1 = (ex.runTask w3 opItem).1 ∧
        (submitTask ex s opItem).2.world = (ex.runTask w3 opItem).2 ∧
        (submitTask ex s opItem).2.tickets
          = Function.update s.tickets opItem.sess ((s.tickets opItem.sess).insert t) ∧
        ticketInserts (submitTask ex s opItem).2.trace
          = ticketInserts s.trace ++ [(opItem.sess, t)] ∧
        runTaskCalls (submitTask ex s opItem).2.trace = runTaskCalls s.trace ++ [opItem]) ∨
      (attemptsAllFail ex opItem (s.log (Event.submitTask opItem)) (eligibleSpecs ex opItem)
          = true ∧
        submitTask ex s opItem
          = (some opItem,
              afterFailedAttempts ex opItem (s.log (Event.submitTask opItem))
                (eligibleSpecs ex opItem)) ∧
        (submitTask ex s opItem).2.tickets = s.tickets ∧
        ticketInserts (submitTask ex s opItem).2.trace = ticketInserts s.trace ∧
        runTaskCalls (submitTask ex s opItem).2.trace = runTaskCalls s.trace) := by
  obtain ⟨_, hr0, hti0⟩ := log_submitTask_calls s opItem
  rcases submitTask_live_run ex s opItem hlive with
    ⟨pre, d, post, hsp, hall, hok, hst⟩ | ⟨hall, hst⟩
  · obtain ⟨htk, hti, hr, _⟩ :=
      afterFailedAttempts_frame ex opItem pre (s.log (Event.submitTask opItem)) hall
    obtain ⟨t, w, w3, hl, hm, hp⟩ :=
      maybePreAllocateFor_true_inv ex
        (afterFailedAttempts ex opItem (s.log (Event.submitTask opItem)) pre) opItem d hok
    have hsucc := maybePreAllocateFor_succeeded ex
      (afterFailedAttempts ex opItem (s.log (Event.submitTask opItem)) pre) opItem d t w w3
      hl hm hp
    have htk0 : (afterFailedAttempts ex opItem (s.log (Event.submitTask opItem)) pre).tickets
        = s.tickets := htk
    have hw : (afterFirstSuccess ex opItem (s.log (Event.submitTask opItem)) pre d).world
        = w3 := by
      show (maybePreAllocateFor ex
        (afterFailedAttempts ex opItem (s.log (Event.submitTask opItem)) pre) opItem d).2.world
          = w3
      rw [hsucc]
    have htk1 : (afterFirstSuccess ex opItem (s.log (Event.submitTask opItem)) pre d).tickets
        = Function.update s.tickets opItem.sess ((s.tickets opItem.sess).insert t) := by
      show (maybePreAllocateFor ex
        (afterFailedAttempts ex opItem (s.log (Event.submitTask opItem)) pre) opItem d).2.tickets
          = _
      rw [hsucc, htk0]
    have htr1 : (afterFirstSuccess ex opItem (s.log (Event.submitTask opItem)) pre d).trace
        = (afterFailedAttempts ex opItem (s.log (Event.submitTask opItem)) pre).trace
          ++ [Event.estimatedUsage opItem d]
          ++ [Event.makeResourceContext opItem.sess opItem.graphId d
                (ex.estimatedUsage
                  (afterFailedAttempts ex opItem (s.log (Event.submitTask opItem)) pre).world
                  opItem d)]
          ++ [Event.prepare opItem t] ++ [Event.ticketInsert opItem.sess t]
          ++ [Event.preAlloc opItem d true] := by
      rw [afterFirstSuccess_trace, hsucc]
    refine Or.inl ⟨pre, d, post, t, w, w3, hsp, hall, hm, hp, ?_, ?_, ?_, ?_, ?_⟩
    · rw [hst]
      simp only [hw]
    · rw [hst]
      simp only [hw]
    · rw [hst]
      exact htk1
    · rw [hst]
      simp only [htr1, ticketInserts_append, hti, hti0]
      simp [ticketInserts]
    · rw [hst]
      simp only [htr1, runTaskCalls_append, hr, hr0]
      simp [runTaskCalls]
  · obtain ⟨htk, hti, hr, _⟩ :=
      afterFailedAttempts_frame ex opItem (eligibleSpecs ex opItem)
        (s.log (Event.submitTask opItem)) hall
    refine Or.inr ⟨hall, hst, ?_, ?_, ?_⟩
    · rw [hst]; exact htk
    · rw [hst]; simp only [hti, hti0]
    · rw [hst]; simp only [hr, hr0]

/-- Witness of C10: `opE` is committed on CPU:0 (ticket 0 inserted, handed to
`runTask`, which consumes it); `opA` is not (no ticket, handed back). -/
theorem submitTask_commit_all_or_nothing_witness :
    (submitTask exDemo sDemo opE).1 = (exDemo.runTask 1 opE).1 ∧
      (submitTask exDemo sDemo opE).2.world = (exDemo.runTask 1 opE).2 ∧
      (submitTask exDemo sDemo opE).2.tickets 0 = [0] ∧
      (submitTask exDemo sDemo opA).1 = some opA ∧
      (submitTask exDemo sDemo opA).2.tickets 0 = [] ∧
      ((∃ pre d post t w w3, eligibleSpecs exDemo opE = pre ++ d :: post ∧
          attemptsAllFail exDemo opE (sDemo.log (Event.submitTask opE)) pre = true ∧
          exDemo.makeResourceContext
            (afterFailedAttempts exDemo opE (sDemo.log (Event.submitTask opE)) pre).world
            opE.sess opE.graphId d
            (exDemo.estimatedUsage
              (afterFailedAttempts exDemo opE (sDemo.log (Event.submitTask opE)) pre).world
              opE d) = (Except.ok t, w) ∧
          exDemo.prepare w opE t = (true, w3) ∧
          (submitTask exDemo sDemo opE).1 = (exDemo.runTask w3 opE).1 ∧
          (submitTask exDemo sDemo opE).2.world = (exDemo.runTask w3 opE).2 ∧
          (submitTask exDemo sDemo opE).2.tickets
            = Function.update sDemo.tickets opE.sess ((sDemo.tickets opE.sess).insert t) ∧
          ticketInserts (submitTask exDemo sDemo opE).2.trace
            = ticketInserts sDemo.trace ++ [(opE.sess, t)] ∧
          runTaskCalls (submitTask exDemo sDemo opE).2.trace
            = runTaskCalls sDemo.trace ++ [opE]) ∨
        (attemptsAllFail exDemo opE (sDemo.log (Event.submitTask opE)) (eligibleSpecs exDemo opE)
            = true ∧
          submitTask exDemo sDemo opE
            = (some opE,
                afterFailedAttempts exDemo opE (sDemo.log (Event.submitTask opE))
                  (eligibleSpecs exDemo opE)) ∧
          (submitTask exDemo sDemo opE).2.tickets = sDemo.tickets ∧
          ticketInserts (submitTask exDemo sDemo opE).2.trace = ticketInserts sDemo.trace ∧
          runTaskCalls (submitTask exDemo sDemo opE).2.trace = runTaskCalls sDemo.trace)) :=
  ⟨by decide, by decide, by decide, by decide, by decide,
    submitTask_commit_all_or_nothing exDemo sDemo opE (by decide)⟩

/-- C11: starting from an empty missing-resource table, if `submitTask` on an
opItem supporting [GPU, CPU] fails pre-allocation on GPU:0 with a non-empty
missing map holding only MEMORY on GPU:0 and then succeeds on CPU:0, then after
the call the table still holds the entry of that opItem,
`insufficientMemory(GPU:0)` is true and `insufficientMemory(CPU:0)` is false,
although the opItem was handed to `runTask`. -/
theorem submitTask_fallback_keeps_record {σ : Type} (ex : Externals σ) (s : SchedState σ)
    (opItem : OperationItem) (missing : Resources) (t : Nat) (w1 w2 w3 : σ)
    (hempty : s.missingRes = [])
    (hsupp : opItem.supportedDeviceTypes = [DeviceType.GPU, DeviceType.CPU])
    (huse : ex.useGPU = true)
    (hlive : ex.lock s.world opItem.sess = true)
    (hgpu : ex.makeResourceContext s.world opItem.sess opItem.graphId
      { type := DeviceType.GPU, id := 0 }
      (ex.estimatedUsage s.world opItem { type := DeviceType.GPU, id := 0 })
        = (Except.error missing, w1))
    (hne : missing ≠ [])
    (hmem : ∀ ta ∈ missing, ta.1.type = ResourceType.MEMORY ∧
      ta.1.device = { type := DeviceType.GPU, id := 0 })
    (hlive1 : ex.lock w1 opItem.sess = true)
    (hcpu : ex.makeResourceContext w1 opItem.sess opItem.graphId
      { type := DeviceType.CPU, id := 0 }
      (ex.estimatedUsage w1 opItem { type := DeviceType.CPU, id := 0 }) = (Except.ok t, w2))
    (hprep : ex.prepare w2 opItem t = (true, w3)) :
    (submitTask ex s opItem).2.missingRes = [(opItem.addr, missing)] ∧
      insufficientMemory (submitTask ex s opItem).2.missingRes
        { type := DeviceType.GPU, id := 0 } = true ∧
      insufficientMemory (submitTask ex s opItem).2.missingRes
        { type := DeviceType.CPU, id := 0 } = false ∧
      runTaskCalls (submitTask ex s opItem).2.trace = runTaskCalls s.trace ++ [opItem] ∧
      preAllocCalls (submitTask ex s opItem).2.trace
        = preAllocCalls s.trace ++
            [(opItem, { type := DeviceType.GPU, id := 0 }, false),
              (opItem, { type := DeviceType.CPU, id := 0 }, true)] := by
  have h1 := maybePreAllocateFor_failed ex (s.log (Event.submitTask opItem)) opItem
    { type := DeviceType.GPU, id := 0 } missing w1 hlive hgpu
  have h2 := maybePreAllocateFor_succeeded ex
    ((maybePreAllocateFor ex (s.log (Event.submitTask opItem)) opItem
        { type := DeviceType.GPU, id := 0 }).2.log
      (Event.preAlloc opItem { type := DeviceType.GPU, id := 0 } false))
    opItem { type := DeviceType.CPU, id := 0 } t w2 w3
    (by rw [h1]; exact hlive1) (by rw [h1]; exact hcpu) hprep
  have hlive0 : ex.lock (s.log (Event.submitTask opItem)).world opItem.sess = true := hlive
  have htable : (submitTask ex s opItem).2.missingRes = [(opItem.addr, missing)] := by
    simp only [submitTask, hlive0, Bool.not_true, Bool.false_eq_true, if_false, hsupp,
      deviceLoop, huse, and_false, reduceCtorEq, false_and]
    rw [h1] at h2 ⊢
    simp only [h2]
    simp [SchedState.log, hempty, emplace]
  refine ⟨htable, ?_, ?_, ?_, ?_⟩
  · rw [htable]
    have := (allEntriesMemoryOn_iff { type := DeviceType.GPU, id := 0 }
      [(opItem.addr, missing)]).mpr (by simpa using hmem)
    simpa [insufficientMemory] using this
  · rw [htable]
    cases missing with
    | nil => exact absurd rfl hne
    | cons hd tl =>
        have hd1 := (hmem hd (List.mem_cons_self _ _)).2
        simp [insufficientMemory, allEntriesMemoryOn, allTagsMemoryOn, hd1]
  · simp only [submitTask, hlive0, Bool.not_true, Bool.false_eq_true, if_false, hsupp,
      deviceLoop, huse, and_false, reduceCtorEq, false_and]
    rw [h1] at h2 ⊢
    simp only [h2]
    simp [SchedState.log, runTaskCalls_append, runTaskCalls]
  · simp only [submitTask, hlive0, Bool.not_true, Bool.false_eq_true, if_false, hsupp,
      deviceLoop, huse, and_false, reduceCtorEq, false_and]
    rw [h1] at h2 ⊢
    simp only [h2]
    simp [SchedState.log, preAllocCalls_append, preAllocCalls]

/-- Witness of C11 (scenario S2): `opE` fails on GPU:0 with missing
{GPU-MEM: 50} and fits on CPU:0; the entry stays, the paging signal is raised
for GPU:0 and not for CPU:0, and `opE` was handed to `runTask`. -/
theorem submitTask_fallback_keeps_record_witness :
    (submitTask exDemo sDemo opE).2.missingRes
        = [(opE.addr, [({ type := ResourceType.MEMORY,
                          device := { type := DeviceType.GPU, id := 0 } }, 50)])] ∧
      insufficientMemory (submitTask exDemo sDemo opE).2.missingRes
        { type := DeviceType.GPU, id := 0 } = true ∧
      insufficientMemory (submitTask exDemo sDemo opE).2.missingRes
        { type := DeviceType.CPU, id := 0 } = false ∧
      runTaskCalls (submitTask exDemo sDemo opE).2.trace = runTaskCalls sDemo.trace ++ [opE] ∧
      preAllocCalls (submitTask exDemo sDemo opE).2.trace
        = preAllocCalls sDemo.trace ++
            [(opE, { type := DeviceType.GPU, id := 0 }, false),
              (opE, { type := DeviceType.CPU, id := 0 }, true)] :=
  submitTask_fallback_keeps_record exDemo sDemo opE
    [({ type := ResourceType.MEMORY, device := { type := DeviceType.GPU, id := 0 } }, 50)]
    0 0 1 1 rfl rfl rfl (by decide) rfl (by decide) (by decide) (by decide) rfl rfl

/-! ### The scheduler registry -/

/-- `find` is `none` exactly when no entry has the name as key. -/
theorem SchedulerRegistary.find_eq_none_iff {E B : Type} (reg : SchedulerRegistary E B)
    (name : String) : reg.find name = none ↔ name ∉ reg.m_schedulers.map Prod.fst := by
  unfold SchedulerRegistary.find
  cases h : reg.m_schedulers.find? (fun e => decide (e.1 = name)) with
  | none =>
      simp only [true_iff]
      rw [List.find?_eq_none] at h
      intro hmem
      rw [List.mem_map] at hmem
      obtain ⟨e, he, hk⟩ := hmem
      have := h e he
      simp [hk] at this
  | some e =>
      simp only [reduceCtorEq, false_iff, not_not]
      have hmem := List.mem_of_find?_eq_some h
      have hk := List.find?_some h
      simp only [decide_eq_true_eq] at hk
      rw [List.mem_map]
      exact ⟨e, hmem, hk⟩

/-- Looking a name up after an entry was appended. -/
theorem SchedulerRegistary.find_append {E B : Type} (reg : SchedulerRegistary E B)
    (name other : String) (factory : E → Option B) :
    SchedulerRegistary.find { m_schedulers := reg.m_schedulers ++ [(name, factory)] } other
      = match reg.find other with
        | some f => some f
        | none => if name = other then some factory else none := by
  unfold SchedulerRegistary.find
  simp only [List.find?_append]
  cases h : reg.m_schedulers.find? (fun e => decide (e.1 = other)) with
  | some e => simp
  | none =>
      by_cases hn : name = other
      · simp [List.find?, hn]
      · simp [List.find?, hn]

/-- What one registration does, for any registry: it succeeds and appends the
entry when the name is free, and is fatal and changes nothing when the name is
taken. -/
theorem SchedulerRegistary.Register_effect {E B : Type} (reg : SchedulerRegistary E B)
    (name : String) (factory : E → Option B) :
    (reg.find name = none →
        reg.Register name factory
          = ({ m_schedulers := reg.m_schedulers ++ [(name, factory)] }, false)) ∧
      (∀ first, reg.find name = some first → reg.Register name factory = (reg, true)) := by
  constructor
  · intro h
    simp [SchedulerRegistary.Register, SchedulerRegistary.try_emplace, h]
  · intro first h
    simp [SchedulerRegistary.Register, SchedulerRegistary.try_emplace, h]

/-- Registrations keep the names of the registry distinct. -/
theorem SchedulerRegistary.foldl_nodup {E B : Type} (regs : List (String × (E → Option B))) :
    ∀ reg : SchedulerRegistary E B, (reg.m_schedulers.map Prod.fst).Nodup →
      ((regs.foldl (fun reg r => (reg.Register r.1 r.2).1) reg).m_schedulers.map
        Prod.fst).Nodup := by
  induction regs with
  | nil => intro reg h; exact h
  | cons r rest ih =>
      intro reg h
      simp only [List.foldl_cons]
      apply ih
      cases hf : reg.find r.1 with
      | none =>
          rw [((SchedulerRegistary.Register_effect reg r.1 r.2).1 hf)]
          have hnot := (SchedulerRegistary.find_eq_none_iff reg r.1).mp hf
          simp only [List.map_append, List.map_cons, List.map_nil]
          rw [List.nodup_append]
          refine ⟨h, List.nodup_singleton _, ?_⟩
          intro a ha hb
          simp only [List.mem_singleton] at hb
          subst hb
          exact hnot ha
      | some first =>
          rw [((SchedulerRegistary.Register_effect reg r.1 r.2).2 first hf)]
          exact h

/-- C13, as stated, fails: after the registration of "null" with a factory
that returns the null pointer, the name is registered and `create("null", …)`
returns null, so `create` does not return null only for names that are not
registered. -/
theorem create_null_for_registered_name :
    ((SchedulerRegistary.registerAll ([] : List (String × (Unit → Option Nat)))).Register
        "null" (fun _ => none)).2 = false ∧
      (SchedulerRegistary.registerAll regsNull).find "null" = some (fun _ => none) ∧
      (SchedulerRegistary.registerAll regsNull).find "null" ≠ none ∧
      (SchedulerRegistary.registerAll regsNull).create "null" () = none := by
  refine ⟨by decide, rfl, ?_, by decide⟩
  intro h
  have h1 : (SchedulerRegistary.registerAll regsNull).find "null"
      = some (fun _ => none) := rfl
  rw [h1] at h
  cases h

/-- C13, amended: after any sequence of registrations the registered names
are distinct; registering (name, factory) succeeds and adds name -> factory
exactly when the name is not yet registered (the other names keep their
factory), and is a fatal failure that leaves the registry, hence the first
factory, in place when the name is registered.  `create(name, engine)` returns
null when the name is not registered and otherwise the result of the factory
registered under the name applied to the engine; hence it returns null exactly
when the name is not registered or that factory returns null. -/
theorem registry_uniqueness {E B : Type} (regs : List (String × (E → Option B)))
    (name : String) (factory : E → Option B) (engine : E) :
    ((SchedulerRegistary.registerAll regs).m_schedulers.map Prod.fst).Nodup ∧
      (((SchedulerRegistary.registerAll regs).Register name factory).2 = false ↔
        (SchedulerRegistary.registerAll regs).find name = none) ∧
      ((SchedulerRegistary.registerAll regs).find name = none →
        ((SchedulerRegistary.registerAll regs).Register name factory).1.m_schedulers
          = (SchedulerRegistary.registerAll regs).m_schedulers ++ [(name, factory)] ∧
        ((SchedulerRegistary.registerAll regs).Register name factory).1.find name
          = some factory ∧
        ∀ other, other ≠ name →
          ((SchedulerRegistary.registerAll regs).Register name factory).1.find other
            = (SchedulerRegistary.registerAll regs).find other) ∧
      (∀ first, (SchedulerRegistary.registerAll regs).find name = some first →
        ((SchedulerRegistary.registerAll regs).Register name factory).2 = true ∧
        ((SchedulerRegistary.registerAll regs).Register name factory).1
          = SchedulerRegistary.registerAll regs ∧
        ((SchedulerRegistary.registerAll regs).Register name factory).1.find name
          = some first) ∧
      ((SchedulerRegistary.registerAll regs).find name = none →
        (SchedulerRegistary.registerAll regs).create name engine = none) ∧
      (∀ f, (SchedulerRegistary.registerAll regs).find name = some f →
        (SchedulerRegistary.registerAll regs).create name engine = f engine) ∧
      ((SchedulerRegistary.registerAll regs).create name engine = none ↔
        ((SchedulerRegistary.registerAll regs).find name = none ∨
          ∃ f, (SchedulerRegistary.registerAll regs).find name = some f ∧
            f engine = none)) := by
  refine ⟨?_, ?_⟩
  · exact SchedulerRegistary.foldl_nodup regs { m_schedulers := [] } (by simp)
  · generalize SchedulerRegistary.registerAll regs = reg
    obtain ⟨hfree, htaken⟩ := SchedulerRegistary.Register_effect reg name factory
    refine ⟨?_, ?_, ?_, ?_, ?_, ?_⟩
    · cases hf : reg.find name with
      | none => rw [hfree hf]; simp
      | some first => rw [htaken first hf]; simp
    · intro hf
      rw [hfree hf]
      refine ⟨rfl, ?_, ?_⟩
      · rw [SchedulerRegistary.find_append, hf]
        simp
      · intro other hne
        rw [SchedulerRegistary.find_append]
        have hne2 : ¬ name = other := fun h => hne h.symm
        cases reg.find other with
        | none => simp [hne2]
        | some f => rfl
    · intro first hf
      rw [htaken first hf]
      exact ⟨rfl, rfl, hf⟩
    · intro hf
      simp [SchedulerRegistary.create, hf]
    · intro f hf
      simp [SchedulerRegistary.create, hf]
    · cases hf : reg.find name with
      | none => simp [SchedulerRegistary.create, hf]
      | some f => simp [SchedulerRegistary.create, hf]

/-- Witness of the amended C13: with "fair" and "pack" registered, a second
registration of "fair" is fatal and keeps the first factory, "edf" is free,
`create` of "fair" is scheduler 1 and `create` of "unknown" is null. -/
theorem registry_uniqueness_witness :
    ((SchedulerRegistary.registerAll regsDemo).Register "fair" (fun _ => some 9)).2 = true ∧
      ((SchedulerRegistary.registerAll regsDemo).Register "fair" (fun _ => some 9)).1.create
          "fair" () = some 1 ∧
      ((SchedulerRegistary.registerAll regsDemo).Register "edf" (fun _ => some 3)).1.find "edf"
        = some (fun _ => some 3) ∧
      (SchedulerRegistary.registerAll regsDemo).create "unknown" () = none ∧
      (SchedulerRegistary.registerAll regsDemo).create "fair" () = some 1 ∧
      ((SchedulerRegistary.registerAll regsDemo).create "unknown" () = none ↔
        ((SchedulerRegistary.registerAll regsDemo).find "unknown" = none ∨
          ∃ f, (SchedulerRegistary.registerAll regsDemo).find "unknown" = some f ∧
            f () = none)) :=
  ⟨((registry_uniqueness regsDemo "fair" (fun _ => some 9) ()).2.2.2.1
      (fun _ => some 1) rfl).1,
    by decide,
    ((registry_uniqueness regsDemo "edf" (fun _ => some 3) ()).2.2.1 rfl).2.1,
    (registry_uniqueness regsDemo "unknown" (fun _ => some 0) ()).2.2.2.2.1 rfl,
    (registry_uniqueness regsDemo "fair" (fun _ => some 0) ()).2.2.2.2.2.1
      (fun _ => some 1) rfl,
    (registry_uniqueness regsDemo "unknown" (fun _ => some 0) ()).2.2.2.2.2.2⟩

/-! ### `notifyPreSchedulingIteration` and the head-hash invariant -/

/-- C14: for every scheduler state and every (sessions, changeset, candidates),
`notifyPreSchedulingIteration` leaves the missing-resource table empty and
changes nothing else: the state is the state before with an empty table,
sessions and candidates are returned as given; hence `insufficientMemory(d)` is
false for every device right afterwards. -/
theorem notifyPreSchedulingIteration_clears {σ Δ : Type} (s : SchedState σ)
    (sessions : List SessionItem) (changeset : Δ) (candidates : List SessionItem) :
    (notifyPreSchedulingIteration s sessions changeset candidates).1.missingRes = [] ∧
      (notifyPreSchedulingIteration s sessions changeset candidates).1
        = { s with missingRes := [] } ∧
      (notifyPreSchedulingIteration s sessions changeset candidates).1.world = s.world ∧
      (notifyPreSchedulingIteration s sessions changeset candidates).1.tickets = s.tickets ∧
      (notifyPreSchedulingIteration s sessions changeset candidates).1.trace = s.trace ∧
      (notifyPreSchedulingIteration s sessions changeset candidates).2.1 = sessions ∧
      (notifyPreSchedulingIteration s sessions changeset candidates).2.2 = candidates ∧
      ∀ d : DeviceSpec,
        insufficientMemory
          (notifyPreSchedulingIteration s sessions changeset candidates).1.missingRes d
          = false := by
  refine ⟨rfl, rfl, rfl, rfl, rfl, rfl, rfl, ?_⟩
  intro d
  simp [notifyPreSchedulingIteration, insufficientMemory]

/-- The block "update queue head waiting" leaves the stored hash in step with
the head of the queue, and a non-zero counter only behind a head whose hash was
the stored one. -/
theorem updateHeadWaiting_synchronised (item : SessionItem) (queue : List OperationItem)
    (scheduled : Nat) :
    (((updateHeadWaiting item queue scheduled).bgQueue = [] ∧
          (updateHeadWaiting item queue scheduled).queueHeadHash = 0 ∧
          (updateHeadWaiting item queue scheduled).holWaiting = 0) ∨
        (∃ front rest, (updateHeadWaiting item queue scheduled).bgQueue = front :: rest ∧
          (updateHeadWaiting item queue scheduled).queueHeadHash = front.hashVal)) ∧
      ((updateHeadWaiting item queue scheduled).holWaiting ≠ 0 →
        ∃ front rest, (updateHeadWaiting item queue scheduled).bgQueue = front :: rest ∧
          front.hashVal = item.queueHeadHash) := by
  cases queue with
  | nil =>
      refine ⟨Or.inl ⟨rfl, rfl, rfl⟩, ?_⟩
      intro h
      exact absurd rfl h
  | cons front rest =>
      by_cases heq : front.hashVal = item.queueHeadHash
      · refine ⟨Or.inr ⟨front, rest, ?_, ?_⟩, fun _ => ⟨front, rest, ?_, heq⟩⟩
        · simp [updateHeadWaiting, heq]
        · simp [updateHeadWaiting, heq]
        · simp [updateHeadWaiting, heq]
      · refine ⟨Or.inr ⟨front, rest, ?_, ?_⟩, ?_⟩
        · simp [updateHeadWaiting, heq]
        · simp [updateHeadWaiting, heq]
        · intro h
          simp [updateHeadWaiting, heq] at h

/-- C15: after a `submitAllTaskFromQueue` call on a session whose queue was
non-empty at entry, either the queue is empty and `queueHeadHash = 0` and
`holWaiting = 0`, or the queue is non-empty and `queueHeadHash` is the hash of
its head; and `holWaiting` is non-zero after the call only if the head at the
end of the call has the hash that `queueHeadHash` held before the call. -/
theorem submitAllTaskFromQueue_head_hash_in_step {σ : Type} (ex : Externals σ)
    (s : SchedState σ) (item : SessionItem) (hne : item.bgQueue ≠ []) :
    (((submitAllTaskFromQueue ex s item).2.1.bgQueue = [] ∧
          (submitAllTaskFromQueue ex s item).2.1.queueHeadHash = 0 ∧
          (submitAllTaskFromQueue ex s item).2.1.holWaiting = 0) ∨
        (∃ front rest, (submitAllTaskFromQueue ex s item).2.1.bgQueue = front :: rest ∧
          (submitAllTaskFromQueue ex s item).2.1.queueHeadHash = front.hashVal)) ∧
      ((submitAllTaskFromQueue ex s item).2.1.holWaiting ≠ 0 →
        ∃ front rest, (submitAllTaskFromQueue ex s item).2.1.bgQueue = front :: rest ∧
          front.hashVal = item.queueHeadHash) := by
  obtain ⟨queue, hu⟩ := submitAllTaskFromQueue_update ex s item hne
  rw [hu]
  exact updateHeadWaiting_synchronised item queue _

/-- Witness of C15: on `itemObserved` (queue `[opA, opC]`, stored hash 101) the
call dispatches `opC`; afterwards `holWaiting = 1` and the head `opA` has the
hash stored before the call. -/
theorem submitAllTaskFromQueue_head_hash_in_step_witness :
    (submitAllTaskFromQueue exDemo sDemo itemObserved).2.1.holWaiting = 1 ∧
      (submitAllTaskFromQueue exDemo sDemo itemObserved).2.1.queueHeadHash = 101 ∧
      ∃ front rest,
        (submitAllTaskFromQueue exDemo sDemo itemObserved).2.1.bgQueue = front :: rest ∧
        front.hashVal = itemObserved.queueHeadHash :=
  ⟨by decide, by decide,
    (submitAllTaskFromQueue_head_hash_in_step exDemo sDemo itemObserved (by decide)).2
      (by decide)⟩

end Salus
